import Mathlib

/-!
# Verification of the AIOps root-cause-analysis core

Shallow embedding of the repository's inference core:

* `logic.py` — the `Alarm` data class, `CausalInferenceEngine`
  (`analyze_alarms`, `_analyze_redundancy`, `_check_silent_failure_for_parent`),
  `simulate_cascade_failure`, `validate_topology`;
* `inference_engine.py` — `LogicalRCA` (`analyze`, `_detect_silent_failures`,
  `analyze_redundancy_depth`, `_sanitize_text`);
* `bayes_engine.py` — `BayesianRCA` (`update_probabilities`, `get_ranking`).

Conventions of the embedding:

* Python dicts become association lists (`List (String × _)`) keeping insertion
  order, which is Python's dict iteration order; keys stay unique by
  construction of the update helpers.
* Python floats become `ℚ`; all numeric literals of the source
  (0.4, 0.5, 0.8, …) are exactly representable.
* Fallible code (`raise ValueError`) returns `Except String _`.
* Python truthiness of an optional string (`if p:`) is `none`
  and `""` falsy, anything else truthy.
* `NetworkNode` is the node record of the `data` module, which only declares
  data; the fields are the ones read by the code under verification
  (`id`, `type`, `layer`, `parent_id`, `redundancy_group`).
-/

/-- Python's substring test `needle in hay` on character lists. -/
def charsContain (needle : List Char) : List Char → Bool
  | [] => needle.isEmpty
  | c :: rest => needle.isPrefixOf (c :: rest) || charsContain needle rest

/-- Python's substring test `needle in hay` for strings. -/
def strContains (hay needle : String) : Bool :=
  charsContain needle.toList hay.toList

/-- ASCII part of Python's regex `\s` class (space, tab, LF, VT, FF, CR). -/
def isPyWS (c : Char) : Bool :=
  c == ' ' || c == '\t' || c == '\n' || c.val == 11 || c.val == 12 || c == '\r'

/-- Python's `str.lower` restricted to ASCII (the classifier only compares
ASCII keywords). -/
def pyLower (s : String) : String :=
  ⟨s.toList.map Char.toLower⟩

/-- Lookup in an association list, i.e. `dict.get(k)` for an
insertion-ordered dict (first — and by construction only — entry wins). -/
def alistGet? {β : Type} : List (String × β) → String → Option β
  | [], _ => none
  | e :: rest, k => if e.1 = k then some e.2 else alistGet? rest k

/-- `k in dict`. -/
def alistHasKey {β : Type} (m : List (String × β)) (k : String) : Bool :=
  (alistGet? m k).isSome

/-- `dict.setdefault(k, []).append(v)`: append `v` to the bucket of `k`
in place, creating the bucket at the end (insertion order) if missing. -/
def alistPush {β : Type} : List (String × List β) → String → β →
    List (String × List β)
  | [], k, v => [(k, [v])]
  | e :: rest, k, v =>
    if e.1 = k then (e.1, e.2 ++ [v]) :: rest else e :: alistPush rest k v

/-- Keys of an association list. -/
def alistKeys {β : Type} (m : List (String × β)) : List String :=
  m.map (fun e => e.1)

-- ## Association-list lemmas

theorem alistGet?_eq_some_of_mem {β : Type} {m : List (String × β)} {k : String}
    {v : β} (hnd : (alistKeys m).Nodup) (hm : (k, v) ∈ m) :
    alistGet? m k = some v := by
  induction m with
  | nil => cases hm
  | cons e rest ih =>
    simp only [alistKeys, List.map_cons, List.nodup_cons] at hnd
    rcases List.mem_cons.mp hm with h | h
    · subst h; simp [alistGet?]
    · have hk : e.1 ≠ k := fun hq =>
        hnd.1 (hq ▸ List.mem_map_of_mem (fun p => p.1) h)
      simp only [alistGet?, hk, if_false]
      exact ih hnd.2 h

theorem alistGet?_push_same {β : Type} (m : List (String × List β)) (k : String)
    (v : β) :
    alistGet? (alistPush m k v) k = some (((alistGet? m k).getD []) ++ [v]) := by
  induction m with
  | nil => simp [alistPush, alistGet?]
  | cons e rest ih =>
    by_cases hk : e.1 = k
    · simp [alistPush, alistGet?, hk]
    · simp [alistPush, alistGet?, hk, ih]

theorem alistGet?_push_ne {β : Type} (m : List (String × List β)) (k k' : String)
    (v : β) (hne : k' ≠ k) :
    alistGet? (alistPush m k v) k' = alistGet? m k' := by
  have hne2 : ¬ (k = k') := fun h => hne h.symm
  induction m with
  | nil => simp [alistPush, alistGet?, hne2]
  | cons e rest ih =>
    by_cases hk : e.1 = k
    · have hne' : ¬ (e.1 = k') := fun h => hne (h.symm.trans hk)
      simp [alistPush, alistGet?, hk, hne', hne2]
    · by_cases hk' : e.1 = k'
      · simp [alistPush, alistGet?, hk, hk', hne]
      · simp [alistPush, alistGet?, hk, hk', ih]

theorem alistKeys_push {β : Type} (m : List (String × List β)) (k : String)
    (v : β) :
    alistKeys (alistPush m k v) =
      if k ∈ alistKeys m then alistKeys m else alistKeys m ++ [k] := by
  induction m with
  | nil => simp [alistPush, alistKeys]
  | cons e rest ih =>
    by_cases hk : e.1 = k
    · simp [alistPush, alistKeys, hk]
    · have hne : ¬ k = e.1 := fun h => hk h.symm
      simp only [alistPush, hk, if_false]
      simp only [alistKeys, List.map_cons] at ih ⊢
      rw [ih]
      by_cases hmem : k ∈ List.map (fun e => e.1) rest <;> simp [hmem, hne]

theorem alistKeys_push_nodup {β : Type} (m : List (String × List β)) (k : String)
    (v : β) (hnd : (alistKeys m).Nodup) :
    (alistKeys (alistPush m k v)).Nodup := by
  rw [alistKeys_push]
  by_cases hmem : k ∈ alistKeys m
  · simpa [hmem]
  · simpa [hmem] using List.Nodup.append hnd (by simp)
      (by simpa [List.disjoint_right] using hmem)

theorem alistGet?_isSome_iff_mem_keys {β : Type} (m : List (String × β))
    (k : String) : (alistGet? m k).isSome ↔ k ∈ alistKeys m := by
  induction m with
  | nil => simp [alistGet?, alistKeys]
  | cons e rest ih =>
    by_cases hk : e.1 = k
    · simp [alistGet?, alistKeys, hk]
    · have hne : ¬ k = e.1 := fun h => hk h.symm
      simp only [alistGet?, hk, if_false, alistKeys, List.map_cons,
        List.mem_cons] at ih ⊢
      simp [hne, ih]

theorem alistHasKey_iff_mem_keys {β : Type} (m : List (String × β)) (k : String) :
    alistHasKey m k = true ↔ k ∈ alistKeys m := by
  rw [← alistGet?_isSome_iff_mem_keys]
  simp [alistHasKey]

theorem alistGet?_push_isSome_iff {β : Type} (m : List (String × List β))
    (k k' : String) (v : β) :
    (alistGet? (alistPush m k v) k').isSome ↔
      ((alistGet? m k').isSome ∨ k' = k) := by
  by_cases hk : k' = k
  · subst hk; simp [alistGet?_push_same]
  · simp [alistGet?_push_ne m k k' v hk, hk]

-- ## `logic.py`: data classes

/-- `logic.Alarm` (dataclass fields; validation is in `mkAlarm` below,
mirroring `__post_init__`). Timestamps are optional rationals. -/
structure Alarm where
  device_id : String
  message : String
  severity : String
  timestamp : Option ℚ := none
deriving DecidableEq, Inhabited

/-- `Alarm.__post_init__`: an unknown severity is silently replaced by
`"WARNING"` (after a log warning), then an empty (falsy) `device_id`
raises `ValueError`.  The `isinstance(device_id, str)` half of that check
is enforced by the embedding's types. -/
def mkAlarm (device_id message severity : String) (timestamp : Option ℚ := none) :
    Except String Alarm :=
  let severity' :=
    if severity = "CRITICAL" ∨ severity = "WARNING" ∨ severity = "INFO" then
      severity
    else "WARNING"
  if device_id = "" then
    Except.error ("Invalid device_id: " ++ device_id)
  else
    Except.ok { device_id := device_id, message := message,
                severity := severity', timestamp := timestamp }

/-- `data.NetworkNode`: the node record consumed by `logic.py`
(`data.py` only declares data; fields are the ones the verified code
reads: `id`, `type`, `layer`, `parent_id`, `redundancy_group`).
The open metadata map is not read by `logic.py` and is omitted. -/
structure NetworkNode where
  id : String
  ntype : String := ""
  layer : Int := 0
  parent_id : Option String := none
  redundancy_group : Option String := none
deriving DecidableEq, Inhabited

/-- A topology: Python `Dict[str, NetworkNode]` as an insertion-ordered
association list with unique keys. -/
abbrev Topology : Type := List (String × NetworkNode)

/-- `topology.values()`. -/
def topoValues (T : Topology) : List NetworkNode :=
  T.map (fun e => e.2)

/-- `key in topology`. -/
def topoHasKey (T : Topology) (k : String) : Bool :=
  alistHasKey T k

/-- `topology.get(key)`. -/
def topoGet? (T : Topology) (k : String) : Option NetworkNode :=
  alistGet? T k

/-- Python truthiness of an optional string (`if p:`): `None` and the
empty string are falsy. -/
def truthy : Option String → Bool
  | none => false
  | some s => !(s = "")

-- ## `logic.simulate_cascade_failure`

/-- `[n for n in topology.values() if n.parent_id == current_parent_id]`:
the direct children of `p` in dict order (`n.parent_id == p` compares an
optional string with the string `p`, so `None` never matches). -/
def childrenOf (T : Topology) (p : String) : List NetworkNode :=
  (topoValues T).filter (fun n => n.parent_id == some p)

/-- One pass of the inner `for child in children` loop: emit ids of
children not yet processed, updating the processed set as we go (so a
duplicated id among the values is still emitted at most once). -/
def freshIds (processed : List String) : List NetworkNode → List String
  | [] => []
  | n :: rest =>
    if n.id ∈ processed then freshIds processed rest
    else n.id :: freshIds (processed ++ [n.id]) rest

/-- The `while queue:` breadth-first loop of `simulate_cascade_failure`,
returning the device ids of the generated child alarms in emission
order.  The loop is fuel-indexed to make it structurally recursive; each
iteration pops one queue element, and ids enter the queue at most once
(they are added to `processed` when enqueued), so
`fuel = |values| + 1` — provided by `simulate_cascade_failure` — is never
exhausted (`cascadeIds_spec` below only needs that bound). -/
def cascadeIds (T : Topology) : Nat → List String → List String → List String
  | 0, _, _ => []
  | _ + 1, [], _ => []
  | fuel + 1, p :: qrest, processed =>
    let fresh := freshIds processed (childrenOf T p)
    fresh ++ cascadeIds T fuel (qrest ++ fresh) (processed ++ fresh)

/-- Sequential fallible construction of the child alarms: stops at the
first `ValueError`, like the Python loop does. -/
def buildAlarms (f : String → Except String Alarm) :
    List String → Except String (List Alarm)
  | [] => Except.ok []
  | x :: xs => (f x).bind (fun a => (buildAlarms f xs).map (fun as => a :: as))

/-- `logic.simulate_cascade_failure`: validates the root id, then emits one
CRITICAL alarm at the root and one WARNING `"Unreachable"` alarm per newly
discovered child, in BFS order.  Alarm construction goes through `mkAlarm`
in emission order, so the first empty device id aborts with `ValueError`
exactly as in the source. -/
def simulate_cascade_failure (root_cause_id : String) (T : Topology)
    (custom_message : String := "Interface Down") : Except String (List Alarm) :=
  if topoHasKey T root_cause_id = false then
    Except.error ("Device " ++ root_cause_id ++ " not found in topology")
  else
    (mkAlarm root_cause_id custom_message "CRITICAL").bind (fun rootAlarm =>
      (buildAlarms (fun cid => mkAlarm cid "Unreachable" "WARNING")
        (cascadeIds T ((topoValues T).length + 1) [root_cause_id]
          [root_cause_id])).map
        (fun childAlarms => rootAlarm :: childAlarms))

-- ## `logic.validate_topology`

/-- `logic.validate_topology`: `False` on an empty topology; otherwise
collects an issue for every id/key mismatch and every truthy `parent_id`
that is not a key, and returns `True` iff no issue was found (issues are
only logged as warnings; the function merely returns a boolean). -/
def validate_topology (T : Topology) : Bool :=
  if T.isEmpty then false
  else
    T.all (fun e =>
      (e.2.id == e.1) &&
      (!(truthy e.2.parent_id) || topoHasKey T (e.2.parent_id.getD "")))

-- ## Descendants: the parent_id reachability relation

/-- One parent/child edge: some value of the topology has id `c` and
(non-optional) parent `p`. -/
def childEdge (T : Topology) (p c : String) : Prop :=
  ∃ n ∈ topoValues T, n.id = c ∧ n.parent_id = some p

/-- `c` is a transitive descendant of `p` through `parent_id` references. -/
def descendant (T : Topology) (p c : String) : Prop :=
  Relation.TransGen (childEdge T) p c

/-- A topology is a forest when no device is its own transitive
descendant. -/
def acyclicTopology (T : Topology) : Prop :=
  ∀ x : String, ¬ descendant T x x

/-- If some rank function strictly increases along every parent/child
edge, the topology is a forest. -/
theorem acyclic_of_rank (T : Topology) (rank : String → Nat)
    (h : ∀ p c, childEdge T p c → rank p < rank c) : acyclicTopology T := by
  intro x hx
  have mono : ∀ a b, descendant T a b → rank a < rank b := by
    intro a b hab
    induction hab with
    | single hstep => exact h _ _ hstep
    | tail _ hstep ih => exact ih.trans (h _ _ hstep)
  exact lt_irrefl _ (mono x x hx)

-- ## BFS correctness for the cascade simulator

/-- The ids of all values of the topology. -/
def idsOf (T : Topology) : List String :=
  (topoValues T).map (fun n => n.id)

/-- Number of value ids not yet processed (the BFS measure). -/
def unprocessedCount (T : Topology) (processed : List String) : Nat :=
  ((idsOf T).filter (fun i => decide (i ∉ processed))).length

theorem freshIds_subset {processed : List String} {cs : List NetworkNode}
    {x : String} (hx : x ∈ freshIds processed cs) :
    x ∉ processed ∧ ∃ n ∈ cs, n.id = x := by
  induction cs generalizing processed with
  | nil => cases hx
  | cons n rest ih =>
    by_cases hmem : n.id ∈ processed
    · simp only [freshIds, hmem, if_true] at hx
      rcases ih hx with ⟨h1, n', hn', hid⟩
      exact ⟨h1, n', List.mem_cons_of_mem _ hn', hid⟩
    · simp only [freshIds, hmem, if_false] at hx
      rcases List.mem_cons.mp hx with h | h
      · exact ⟨h ▸ hmem, n, List.mem_cons_self _ _, h.symm⟩
      · rcases ih h with ⟨h1, n', hn', hid⟩
        refine ⟨fun hc => h1 (List.mem_append_left _ hc),
          n', List.mem_cons_of_mem _ hn', hid⟩

theorem freshIds_nodup (processed : List String) (cs : List NetworkNode) :
    (freshIds processed cs).Nodup := by
  induction cs generalizing processed with
  | nil => simp [freshIds]
  | cons n rest ih =>
    by_cases hmem : n.id ∈ processed
    · simpa only [freshIds, hmem, if_true] using ih processed
    · simp only [freshIds, hmem, if_false, List.nodup_cons]
      refine ⟨fun hc => ?_, ih _⟩
      exact (freshIds_subset hc).1 (List.mem_append_right _ (by simp))

theorem freshIds_covers {processed : List String} {cs : List NetworkNode} :
    ∀ n ∈ cs, n.id ∈ processed ++ freshIds processed cs := by
  induction cs generalizing processed with
  | nil => intro n hn; cases hn
  | cons m rest ih =>
    intro n hn
    by_cases hmem : m.id ∈ processed
    · simp only [freshIds, hmem, if_true]
      rcases List.mem_cons.mp hn with h | h
      · exact List.mem_append_left _ (h ▸ hmem)
      · exact ih n h
    · simp only [freshIds, hmem, if_false]
      rcases List.mem_cons.mp hn with h | h
      · subst h; exact List.mem_append_right _ (by simp)
      · have := @ih (processed ++ [m.id]) n h
        rcases List.mem_append.mp this with h' | h'
        · rcases List.mem_append.mp h' with h'' | h''
          · exact List.mem_append_left _ h''
          · have hid : n.id = m.id := by simpa using h''
            exact List.mem_append_right _ (hid ▸ List.mem_cons_self _ _)
        · exact List.mem_append_right _ (List.mem_cons_of_mem _ h')

theorem filter_length_mono (l : List String) (p q : String → Bool)
    (h : ∀ x, q x = true → p x = true) :
    (l.filter q).length ≤ (l.filter p).length := by
  induction l with
  | nil => simp
  | cons a l ih =>
    by_cases hq : q a = true
    · simp only [List.filter_cons, hq, h a hq, List.length_cons]
      exact Nat.succ_le_succ ih
    · rw [List.filter_cons]
      simp only [hq, if_false]
      by_cases hp : p a = true
      · simp only [List.filter_cons, hp, List.length_cons]
        exact Nat.le_succ_of_le ih
      · simp only [List.filter_cons, hp, if_false]
        exact ih

theorem filter_length_drop (l P : List String) (a : String) (ha : a ∈ l)
    (hnp : a ∉ P) :
    (l.filter (fun i => decide (i ∉ P ++ [a]))).length + 1 ≤
      (l.filter (fun i => decide (i ∉ P))).length := by
  have hmono : ∀ x : String, (decide (x ∉ P ++ [a]) = true) →
      (decide (x ∉ P) = true) := by
    intro x hx
    simp only [decide_eq_true_eq, List.mem_append] at hx ⊢
    exact fun hc => hx (Or.inl hc)
  induction l with
  | nil => cases ha
  | cons b l ih =>
    by_cases hba : b = a
    · subst hba
      have h1 : (decide (b ∉ P ++ [b])) = false := by
        simp [List.mem_append]
      have h2 : (decide (b ∉ P)) = true := by simp [hnp]
      simp only [List.filter_cons, h1, if_false, h2, List.length_cons]
      exact Nat.succ_le_succ (filter_length_mono l _ _ hmono)
    · have ha' : a ∈ l := by
        rcases List.mem_cons.mp ha with h | h
        · exact absurd h.symm hba
        · exact h
      by_cases hbP : b ∈ P
      · have h1 : (decide (b ∉ P ++ [a])) = false := by
          simp [List.mem_append, hbP]
        have h2 : (decide (b ∉ P)) = false := by simp [hbP]
        simp only [List.filter_cons, h1, h2, if_false]
        exact ih ha'
      · have h1 : (decide (b ∉ P ++ [a])) = true := by
          simp [List.mem_append, hbP, hba]
        have h2 : (decide (b ∉ P)) = true := by simp [hbP]
        simp only [List.filter_cons, h1, h2, List.length_cons]
        exact Nat.succ_le_succ (ih ha')

theorem unprocessedCount_drop (T : Topology) (P F : List String)
    (hnd : F.Nodup) (hF : ∀ x ∈ F, x ∈ idsOf T ∧ x ∉ P) :
    unprocessedCount T (P ++ F) + F.length ≤ unprocessedCount T P := by
  induction F generalizing P with
  | nil => simp [unprocessedCount]
  | cons a F ih =>
    have hstep : unprocessedCount T (P ++ [a]) + 1 ≤ unprocessedCount T P := by
      have := filter_length_drop (idsOf T) P a (hF a (by simp)).1 (hF a (by simp)).2
      simpa [unprocessedCount] using this
    have hrec : unprocessedCount T ((P ++ [a]) ++ F) + F.length ≤
        unprocessedCount T (P ++ [a]) := by
      apply ih
      · exact (List.nodup_cons.mp hnd).2
      · intro x hx
        refine ⟨(hF x (List.mem_cons_of_mem _ hx)).1, fun hc => ?_⟩
        rcases List.mem_append.mp hc with h | h
        · exact (hF x (List.mem_cons_of_mem _ hx)).2 h
        · have : x = a := by simpa using h
          exact (List.nodup_cons.mp hnd).1 (this ▸ hx)
    have heq : (P ++ [a]) ++ F = P ++ a :: F := by simp
    rw [heq] at hrec
    simp only [List.length_cons]
    omega

theorem childrenOf_mem {T : Topology} {p : String} {n : NetworkNode}
    (h : n ∈ childrenOf T p) : n ∈ topoValues T ∧ n.parent_id = some p := by
  have := List.mem_filter.mp h
  exact ⟨this.1, by simpa using this.2⟩

theorem childEdge_of_children {T : Topology} {p : String} {n : NetworkNode}
    (h : n ∈ childrenOf T p) : childEdge T p n.id := by
  rcases childrenOf_mem h with ⟨h1, h2⟩
  exact ⟨n, h1, rfl, h2⟩

theorem cascade_sound (T : Topology) :
    ∀ (fuel : Nat) (Q P : List String), ∀ x ∈ cascadeIds T fuel Q P,
      x ∉ P ∧ (∃ q ∈ Q, descendant T q x) ∧ x ∈ idsOf T := by
  intro fuel
  induction fuel with
  | zero => intro Q P x hx; cases hx
  | succ fuel ih =>
    intro Q P x hx
    match Q with
    | [] => cases hx
    | p :: qrest =>
      simp only [cascadeIds] at hx
      rcases List.mem_append.mp hx with h | h
      · rcases freshIds_subset h with ⟨hnp, n, hn, hid⟩
        refine ⟨hnp, ⟨p, by simp, ?_⟩, ?_⟩
        · exact Relation.TransGen.single (hid ▸ childEdge_of_children hn)
        · exact hid ▸ List.mem_map_of_mem _ (childrenOf_mem hn).1
      · rcases ih _ _ x h with ⟨hnp, ⟨q', hq', hd⟩, hids⟩
        refine ⟨fun hc => hnp (List.mem_append_left _ hc), ?_, hids⟩
        rcases List.mem_append.mp hq' with hq | hq
        · exact ⟨q', List.mem_cons_of_mem _ hq, hd⟩
        · rcases freshIds_subset hq with ⟨_, n, hn, hid⟩
          refine ⟨p, by simp, ?_⟩
          exact Relation.TransGen.head (hid ▸ childEdge_of_children hn) hd

theorem cascade_nodup (T : Topology) :
    ∀ (fuel : Nat) (Q P : List String), (cascadeIds T fuel Q P).Nodup := by
  intro fuel
  induction fuel with
  | zero => intro Q P; simp [cascadeIds]
  | succ fuel ih =>
    intro Q P
    match Q with
    | [] => simp [cascadeIds]
    | p :: qrest =>
      simp only [cascadeIds]
      refine List.Nodup.append (freshIds_nodup _ _) (ih _ _) ?_
      intro x hx hx'
      exact (cascade_sound T fuel _ _ x hx').1 (List.mem_append_right _ hx)

/-- Invariant: every processed node is either still queued or all its
children are processed already. -/
def expandedInv (T : Topology) (Q P : List String) : Prop :=
  ∀ p ∈ P, p ∈ Q ∨ ∀ n ∈ childrenOf T p, n.id ∈ P

theorem reach_escape (T : Topology) (Q P : List String)
    (hexp : expandedInv T Q P) {q x : String}
    (hqx : Relation.ReflTransGen (childEdge T) q x) (hq : q ∈ P) (hx : x ∉ P) :
    ∃ q' ∈ Q, Relation.ReflTransGen (childEdge T) q' x := by
  induction hqx using Relation.ReflTransGen.head_induction_on with
  | refl => exact absurd hq hx
  | head hstep htail ih =>
    rename_i a c
    rcases hexp a hq with hQ | hkids
    · exact ⟨a, hQ, Relation.ReflTransGen.head hstep htail⟩
    · rcases hstep with ⟨n, hn, hid, hpar⟩
      have hc : c ∈ P := by
        have : n ∈ childrenOf T a :=
          List.mem_filter.mpr ⟨hn, by simp [hpar]⟩
        exact hid ▸ hkids n this
      exact ih hc

theorem cascade_complete (T : Topology) :
    ∀ (fuel : Nat) (Q P : List String),
      unprocessedCount T P + Q.length ≤ fuel →
      (∀ q ∈ Q, q ∈ P) → expandedInv T Q P →
      ∀ x, x ∉ P → (∃ q ∈ Q, Relation.ReflTransGen (childEdge T) q x) →
      x ∈ cascadeIds T fuel Q P := by
  intro fuel
  induction fuel with
  | zero =>
    intro Q P hfuel _ _ x _ ⟨q, hq, _⟩
    have : Q.length = 0 := by omega
    rw [List.length_eq_zero.mp this] at hq
    cases hq
  | succ fuel ih =>
    intro Q P hfuel hQP hexp x hxP hw
    match Q with
    | [] => rcases hw with ⟨q, hq, _⟩; cases hq
    | p :: qrest =>
      simp only [cascadeIds]
      set fresh := freshIds P (childrenOf T p) with hfresh
      by_cases hxf : x ∈ fresh
      · exact List.mem_append_left _ hxf
      · apply List.mem_append_right
        have hfresh_props : ∀ y ∈ fresh, y ∈ idsOf T ∧ y ∉ P := by
          intro y hy
          rcases freshIds_subset hy with ⟨hnp, n, hn, hid⟩
          exact ⟨hid ▸ List.mem_map_of_mem _ (childrenOf_mem hn).1, hnp⟩
        have hQP' : ∀ q ∈ qrest ++ fresh, q ∈ P ++ fresh := by
          intro q hq
          rcases List.mem_append.mp hq with h | h
          · exact List.mem_append_left _ (hQP q (List.mem_cons_of_mem _ h))
          · exact List.mem_append_right _ h
        have hexp' : expandedInv T (qrest ++ fresh) (P ++ fresh) := by
          intro a ha
          rcases List.mem_append.mp ha with haP | haF
          · rcases hexp a haP with hQ | hkids
            · rcases List.mem_cons.mp hQ with h | h
              · subst h
                right
                intro n hn
                exact freshIds_covers n hn
              · exact Or.inl (List.mem_append_left _ h)
            · right
              intro n hn
              exact List.mem_append_left _ (hkids n hn)
          · exact Or.inl (List.mem_append_right _ haF)
        apply ih (qrest ++ fresh) (P ++ fresh) ?_ hQP' hexp' x ?_ ?_
        · have hdrop := unprocessedCount_drop T P fresh
            (freshIds_nodup _ _) hfresh_props
          have hlen : (qrest ++ fresh).length = qrest.length + fresh.length := by
            simp
          simp only [List.length_cons] at hfuel
          omega
        · intro hc
          rcases List.mem_append.mp hc with h | h
          · exact hxP h
          · exact hxf h
        · rcases hw with ⟨q, hq, hqx⟩
          exact reach_escape T (qrest ++ fresh) (P ++ fresh) hexp'
            hqx (List.mem_append_left _ (hQP q hq)) (fun hc => by
              rcases List.mem_append.mp hc with h | h
              · exact hxP h
              · exact hxf h)

/-- The BFS started at a root `r` (with `r` pre-processed and fuel
`|values| + 1`) emits exactly the transitive descendants of `r`, each
once, provided `r` is not its own descendant. -/
theorem cascadeIds_spec (T : Topology) (r : String)
    (hacy : ¬ descendant T r r) :
    (cascadeIds T ((topoValues T).length + 1) [r] [r]).Nodup ∧
    (∀ x, x ∈ cascadeIds T ((topoValues T).length + 1) [r] [r] ↔
      descendant T r x) ∧
    (∀ x ∈ cascadeIds T ((topoValues T).length + 1) [r] [r], x ∈ idsOf T) := by
  refine ⟨cascade_nodup T _ _ _, fun x => ⟨fun hx => ?_, fun hx => ?_⟩,
    fun x hx => (cascade_sound T _ _ _ x hx).2.2⟩
  · rcases cascade_sound T _ _ _ x hx with ⟨_, ⟨q, hq, hd⟩, _⟩
    have : q = r := by simpa using hq
    exact this ▸ hd
  · have hxr : x ∉ ([r] : List String) := by
      intro hc
      have : x = r := by simpa using hc
      exact hacy (this ▸ hx)
    apply cascade_complete T _ [r] [r] ?_ (by simp) ?_ x hxr
      ⟨r, by simp, hx.to_reflTransGen⟩
    · have : unprocessedCount T [r] ≤ (topoValues T).length := by
        have h1 : unprocessedCount T [r] ≤ (idsOf T).length :=
          (List.length_filter_le _ _)
        simpa [idsOf] using h1
      simp only [List.length_singleton]
      omega
    · intro p hp
      exact Or.inl hp

-- ## Theorems about the cascade simulator

theorem buildAlarms_ok (l : List String) (h : ∀ i ∈ l, i ≠ "") :
    buildAlarms (fun cid => mkAlarm cid "Unreachable" "WARNING") l =
      Except.ok (l.map (fun cid =>
        { device_id := cid, message := "Unreachable", severity := "WARNING",
          timestamp := none })) := by
  induction l with
  | nil => rfl
  | cons a l ih =>
    have ha : a ≠ "" := h a (by simp)
    have hrest := ih (fun i hi => h i (List.mem_cons_of_mem _ hi))
    have hone : mkAlarm a "Unreachable" "WARNING" = Except.ok
        { device_id := a, message := "Unreachable", severity := "WARNING",
          timestamp := none } := by
      simp [mkAlarm, ha]
    simp [buildAlarms, hone, hrest, Except.bind, Except.map]

theorem topoValues_id_ne_empty {T : Topology}
    (hids : ∀ e ∈ T, e.1 ≠ "" ∧ e.2.id ≠ "")
    {x : String} (hx : x ∈ idsOf T) : x ≠ "" := by
  rcases List.mem_map.mp hx with ⟨n, hn, hid⟩
  rcases List.mem_map.mp hn with ⟨e, he, hv⟩
  exact hid ▸ hv ▸ (hids e he).2

theorem topoHasKey_ne_empty {T : Topology}
    (hids : ∀ e ∈ T, e.1 ≠ "" ∧ e.2.id ≠ "")
    {r : String} (hr : topoHasKey T r = true) : r ≠ "" := by
  have := (alistGet?_isSome_iff_mem_keys T r).mp
    (by simpa [topoHasKey, alistHasKey] using hr)
  rcases List.mem_map.mp this with ⟨e, he, hk⟩
  exact hk ▸ (hids e he).1

theorem simulate_ok_of_good_ids (T : Topology) (r msg : String)
    (hr : topoHasKey T r = true)
    (hids : ∀ e ∈ T, e.1 ≠ "" ∧ e.2.id ≠ "") :
    simulate_cascade_failure r T msg =
      Except.ok ({ device_id := r, message := msg, severity := "CRITICAL",
                   timestamp := none } ::
        (cascadeIds T ((topoValues T).length + 1) [r] [r]).map (fun cid =>
          { device_id := cid, message := "Unreachable", severity := "WARNING",
            timestamp := none })) := by
  have hrne : r ≠ "" := topoHasKey_ne_empty hids hr
  have hroot : mkAlarm r msg "CRITICAL" = Except.ok
      { device_id := r, message := msg, severity := "CRITICAL",
        timestamp := none } := by
    simp [mkAlarm, hrne]
  have hkids : ∀ i ∈ cascadeIds T ((topoValues T).length + 1) [r] [r], i ≠ "" :=
    fun i hi => topoValues_id_ne_empty hids (cascade_sound T _ _ _ i hi).2.2
  simp [simulate_cascade_failure, hr, hroot, buildAlarms_ok _ hkids,
    Except.bind, Except.map]

/-- C1 (amended): on a forest whose device ids are all non-empty,
`simulate_cascade_failure` returns exactly one CRITICAL alarm at the root
carrying the template message, plus exactly one WARNING `"Unreachable"`
alarm per distinct transitive descendant of the root — no device twice,
no descendant omitted. -/
theorem cascade_exactly_descendants (T : Topology) (r msg : String)
    (hr : topoHasKey T r = true)
    (hids : ∀ e ∈ T, e.1 ≠ "" ∧ e.2.id ≠ "")
    (hforest : acyclicTopology T) :
    ∃ rest : List Alarm,
      simulate_cascade_failure r T msg =
        Except.ok ({ device_id := r, message := msg, severity := "CRITICAL",
                     timestamp := none } :: rest) ∧
      (∀ a ∈ rest, a.message = "Unreachable" ∧ a.severity = "WARNING") ∧
      (rest.map Alarm.device_id).Nodup ∧
      (∀ x, x ∈ rest.map Alarm.device_id ↔ descendant T r x) := by
  rcases cascadeIds_spec T r (hforest r) with ⟨hnd, hiff, _⟩
  have hmapmap : List.map Alarm.device_id
      (List.map (fun cid => ({ device_id := cid, message := "Unreachable",
                               severity := "WARNING",
                               timestamp := none } : Alarm))
        (cascadeIds T ((topoValues T).length + 1) [r] [r])) =
      cascadeIds T ((topoValues T).length + 1) [r] [r] := by
    rw [List.map_map]
    exact List.map_id _
  refine ⟨_, simulate_ok_of_good_ids T r msg hr hids, ?_, ?_, ?_⟩
  · intro a ha
    rcases List.mem_map.mp ha with ⟨cid, _, hc⟩
    exact hc ▸ ⟨rfl, rfl⟩
  · rw [hmapmap]
    exact hnd
  · intro x
    rw [hmapmap]
    exact hiff x

/-- A topology whose single device has the empty string as id (a key
Python's dict accepts and `validate_topology` does not reject). -/
def cexTopo : Topology := [("", { id := "" })]

theorem cexTopo_acyclic : acyclicTopology cexTopo := by
  intro x hx
  have hedge : ∀ p c : String, ¬ childEdge cexTopo p c := by
    rintro p c ⟨n, hn, _, hpar⟩
    have hn' : n = { id := "" } := by simpa [cexTopo, topoValues] using hn
    rw [hn'] at hpar
    simp at hpar
  cases hx with
  | single h => exact hedge _ _ h
  | tail _ h => exact hedge _ _ h

/-- C1 counterexample: on the (vacuously forest) topology whose only
device id is the empty string, the cascade simulation of that root id
raises `ValueError` from the `Alarm` constructor instead of returning the
described alarm list. -/
theorem cascade_exactly_descendants_counterexample :
    acyclicTopology cexTopo ∧
    topoHasKey cexTopo "" = true ∧
    simulate_cascade_failure "" cexTopo "Interface Down" =
      Except.error ("Invalid device_id: " ++ "") :=
  ⟨cexTopo_acyclic, rfl, rfl⟩

/-- A small three-level chain used to instantiate the general theorems. -/
def wTopo : Topology :=
  [("R", { id := "R" }),
   ("S", { id := "S", parent_id := some "R" }),
   ("A", { id := "A", parent_id := some "S" })]

theorem wTopo_acyclic : acyclicTopology wTopo := by
  apply acyclic_of_rank wTopo
    (fun s => if s = "R" then 0 else if s = "S" then 1 else 2)
  rintro p c ⟨n, hn, hid, hpar⟩
  simp only [wTopo, topoValues, List.map_cons, List.map_nil, List.mem_cons,
    List.not_mem_nil, or_false] at hn
  rcases hn with h | h | h
  · subst h; simp at hpar
  · subst h
    obtain rfl : "R" = p := by simpa using hpar
    obtain rfl : "S" = c := hid
    decide
  · subst h
    obtain rfl : "S" = p := by simpa using hpar
    obtain rfl : "A" = c := hid
    decide

theorem cascade_exactly_descendants_witness :
    ∃ rest : List Alarm,
      simulate_cascade_failure "R" wTopo "Down" =
        Except.ok ({ device_id := "R", message := "Down",
                     severity := "CRITICAL", timestamp := none } :: rest) ∧
      (∀ a ∈ rest, a.message = "Unreachable" ∧ a.severity = "WARNING") ∧
      (rest.map Alarm.device_id).Nodup ∧
      (∀ x, x ∈ rest.map Alarm.device_id ↔ descendant wTopo "R" x) :=
  cascade_exactly_descendants wTopo "R" "Down" (by decide) (by decide)
    wTopo_acyclic

/-- C8 (amended): provided every device id of the topology is a non-empty
string, `simulate_cascade_failure` fails exactly when the root id is not a
key of the topology; a failure carries only the error, never alarms, and
the function is pure, so no state changes. -/
theorem simulate_error_iff (T : Topology) (r msg : String)
    (hids : ∀ e ∈ T, e.1 ≠ "" ∧ e.2.id ≠ "") :
    (∃ s, simulate_cascade_failure r T msg = Except.error s) ↔
      topoHasKey T r = false := by
  constructor
  · rintro ⟨s, hs⟩
    cases h : topoHasKey T r
    · rfl
    · rw [simulate_ok_of_good_ids T r msg h hids] at hs
      cases hs
  · intro h
    refine ⟨"Device " ++ r ++ " not found in topology", ?_⟩
    simp [simulate_cascade_failure, h]

/-- C8 counterexample: with the empty string as a topology key, the
simulation fails by `ValueError` even though the root id is a key. -/
theorem simulate_error_iff_counterexample :
    topoHasKey cexTopo "" = true ∧
    simulate_cascade_failure "" cexTopo "Interface Down" =
      Except.error ("Invalid device_id: " ++ "") :=
  ⟨rfl, rfl⟩

theorem simulate_error_iff_witness :
    (∃ s, simulate_cascade_failure "GHOST" wTopo "Down" = Except.error s) ↔
      topoHasKey wTopo "GHOST" = false :=
  simulate_error_iff wTopo "GHOST" "Down" (by decide)

/-- C10: constructing an `Alarm` never fails because of the severity —
any severity outside CRITICAL/WARNING/INFO is silently replaced by
WARNING — whereas an empty `device_id` always raises `ValueError`
(a non-string `device_id` is ruled out by the embedding's types). -/
theorem mkAlarm_severity_total (d m sev : String) :
    (d ≠ "" → mkAlarm d m sev = Except.ok
      { device_id := d, message := m,
        severity :=
          if sev = "CRITICAL" ∨ sev = "WARNING" ∨ sev = "INFO" then sev
          else "WARNING",
        timestamp := none }) ∧
    mkAlarm "" m sev = Except.error ("Invalid device_id: " ++ "") := by
  constructor
  · intro hd
    simp [mkAlarm, hd]
  · simp [mkAlarm]

theorem mkAlarm_severity_total_witness :
    mkAlarm "X" "hello" "BOGUS" = Except.ok
      { device_id := "X", message := "hello", severity := "WARNING",
        timestamp := none } := by
  have h := (mkAlarm_severity_total "X" "hello" "BOGUS").1 (by decide)
  simpa using h

-- ## `logic.CausalInferenceEngine`

/-- `logic.InferenceResult` (dataclass fields). -/
structure InferenceResult where
  root_cause_node : Option NetworkNode
  root_cause_reason : String
  sop_key : String
  related_alarms : List Alarm := []
  severity : String := "CRITICAL"
deriving DecidableEq, Inhabited

/-- `InferenceResult.__post_init__`: severity outside
CRITICAL/WARNING/INFO/UNKNOWN is silently replaced by UNKNOWN. -/
def mkInferenceResult (node : Option NetworkNode) (reason sop : String)
    (related : List Alarm) (sev : String) : InferenceResult :=
  { root_cause_node := node, root_cause_reason := reason, sop_key := sop,
    related_alarms := related,
    severity :=
      if sev = "CRITICAL" ∨ sev = "WARNING" ∨ sev = "INFO" ∨ sev = "UNKNOWN"
      then sev else "UNKNOWN" }

/-- The sort key of `analyze_alarms`: the device layer, or 999 for devices
missing from the topology. -/
def layerKey (T : Topology) (a : Alarm) : Int :=
  match topoGet? T a.device_id with
  | some n => n.layer
  | none => 999

/-- `{a.device_id: a for a in alarms}[d]`: a dict comprehension keeps the
last alarm of each device. -/
def alarmMapGet? (alarms : List Alarm) (d : String) : Option Alarm :=
  (alarms.filter (fun a => a.device_id == d)).getLast?

/-- `CausalInferenceEngine._analyze_redundancy` (the node's
`redundancy_group` is truthy at the call site; `g` names it for the
f-strings, which print the raw string). -/
def analyzeRedundancy (T : Topology) (node : NetworkNode)
    (alarmed_ids : List String) (alarms : List Alarm) : InferenceResult :=
  let group_members := (topoValues T).filter
    (fun n => n.redundancy_group == node.redundancy_group)
  let down_members := group_members.filter (fun n => decide (n.id ∈ alarmed_ids))
  let error_details := down_members.filterMap (fun m =>
    (alarmMapGet? alarms m.id).map (fun a => m.id ++ ": " ++ a.message))
  let details_str := String.intercalate ", " error_details
  let g := node.redundancy_group.getD ""
  if down_members.length = group_members.length then
    mkInferenceResult (some node)
      ("冗長性ルール: HAグループ " ++ g ++ " 全停止。詳細: [" ++ details_str ++ "]")
      "HA_TOTAL_FAILURE" alarms "CRITICAL"
  else
    mkInferenceResult (some node)
      ("冗長性ルール: HAグループ " ++ g ++ " 片系障害 (稼働継続)。検知内容: [" ++
        details_str ++ "]")
      "HA_PARTIAL_FAILURE" alarms "WARNING"

/-- `CausalInferenceEngine._check_silent_failure_for_parent`. -/
def checkSilentFailureForParent (T : Topology) (parent_id : String)
    (alarmed_ids : List String) : Option InferenceResult :=
  match topoGet? T parent_id with
  | none => none
  | some parent_node =>
    let children := (topoValues T).filter (fun n => n.parent_id == some parent_id)
    if children.isEmpty then none
    else
      let children_down :=
        (children.filter (fun c => decide (c.id ∈ alarmed_ids))).length
      if children_down = children.length then
        some (mkInferenceResult (some parent_node)
          ("サイレント障害推論: 親デバイス " ++ parent_id ++
            " は沈黙していますが、配下の子デバイスが全滅しています。")
          "SILENT_FAILURE" [] "CRITICAL")
      else none

/-- `CausalInferenceEngine.analyze_alarms`.  The `isinstance(alarms, list)`
check is enforced by the embedding's types; the constructor's rejection of
an empty topology is noted where theorems need a non-empty topology.
Python's stable `sorted` is modelled by insertion sort, the stable sort
for the same key order, and `sorted_alarms[0]` by `headI` (the guard has
already excluded the empty list). -/
def analyze_alarms (T : Topology) (alarms : List Alarm) : InferenceResult :=
  if alarms.isEmpty then
    mkInferenceResult none "アラームなし" "DEFAULT" [] "INFO"
  else
    let alarmed_ids := alarms.map (fun a => a.device_id)
    let sorted := List.insertionSort
      (fun a b => layerKey T a ≤ layerKey T b) alarms
    let top_alarm := sorted.headI
    match topoGet? T top_alarm.device_id with
    | none =>
      mkInferenceResult none ("不明なデバイス: " ++ top_alarm.device_id)
        "DEFAULT" alarms "UNKNOWN"
    | some top_node =>
      let hierarchy := mkInferenceResult (some top_node)
        ("階層ルール: 最上位レイヤーのデバイス " ++ top_node.id ++
          " でアラーム検知 (" ++ top_alarm.message ++ ")")
        "HIERARCHY_FAILURE" alarms top_alarm.severity
      if truthy top_node.redundancy_group then
        analyzeRedundancy T top_node alarmed_ids alarms
      else if truthy top_node.parent_id then
        match checkSilentFailureForParent T (top_node.parent_id.getD "")
            alarmed_ids with
        | some res => res
        | none => hierarchy
      else hierarchy

-- ## C3: redundancy-group severity

/-- A well-formed topology dict: unique keys, and each node's `id` equals
its key (the property `validate_topology` checks). -/
def WFTopology (T : Topology) : Prop :=
  (alistKeys T).Nodup ∧ ∀ e ∈ T, e.2.id = e.1

/-- The members of redundancy group `g`. -/
def groupMembers (T : Topology) (g : String) : List NetworkNode :=
  (topoValues T).filter (fun n => n.redundancy_group == some g)

theorem headI_mem {α : Type} [Inhabited α] (l : List α) (h : l ≠ []) :
    l.headI ∈ l := by
  cases l with
  | nil => exact absurd rfl h
  | cons a l => simp [List.headI]

theorem topoGet?_of_value {T : Topology} (hwf : WFTopology T)
    {n : NetworkNode} {d : String} (hn : n ∈ topoValues T) (hd : n.id = d) :
    topoGet? T d = some n := by
  rcases List.mem_map.mp hn with ⟨e, he, hv⟩
  have hkey : e.1 = d := by rw [← hwf.2 e he, hv, hd]
  have : (d, n) ∈ T := by
    have : e = (d, n) := Prod.ext hkey hv
    exact this ▸ he
  exact alistGet?_eq_some_of_mem hwf.1 this

/-- C3: for a redundancy group G, if the alarms are exactly alarms of
members of G then: a proper, non-empty alarmed subset yields the
HA-partial result at WARNING severity (no member receives a CRITICAL
verdict from that symptom alone), and all members alarmed yields the
HA-total result at CRITICAL severity, carried by a member of G. -/
theorem redundancy_group_severity (T : Topology) (g : String)
    (alarms : List Alarm) (hwf : WFTopology T) (hg : g ≠ "")
    (hne : alarms ≠ [])
    (hmem : ∀ a ∈ alarms, ∃ n ∈ topoValues T,
      n.id = a.device_id ∧ n.redundancy_group = some g) :
    ((∃ n ∈ groupMembers T g, ∀ a ∈ alarms, a.device_id ≠ n.id) →
      (analyze_alarms T alarms).severity = "WARNING" ∧
      (analyze_alarms T alarms).sop_key = "HA_PARTIAL_FAILURE") ∧
    ((∀ n ∈ groupMembers T g, ∃ a ∈ alarms, a.device_id = n.id) →
      (analyze_alarms T alarms).severity = "CRITICAL" ∧
      (analyze_alarms T alarms).sop_key = "HA_TOTAL_FAILURE" ∧
      ∃ node, (analyze_alarms T alarms).root_cause_node = some node ∧
        node.redundancy_group = some g) := by
  have hie : alarms.isEmpty = false := by
    cases alarms with
    | nil => exact absurd rfl hne
    | cons a l => rfl
  set sorted := List.insertionSort
    (fun a b => layerKey T a ≤ layerKey T b) alarms with hsorted
  have hsne : sorted ≠ [] := by
    intro hc
    have := List.length_insertionSort
      (fun a b => layerKey T a ≤ layerKey T b) alarms
    rw [← hsorted, hc] at this
    simp at this
    exact hne (List.length_eq_zero.mp this.symm)
  have htopmem : sorted.headI ∈ alarms :=
    (List.perm_insertionSort (fun a b => layerKey T a ≤ layerKey T b)
      alarms).mem_iff.mp (headI_mem sorted hsne)
  rcases hmem _ htopmem with ⟨n, hnv, hnid, hnrg⟩
  have hget : topoGet? T sorted.headI.device_id = some n :=
    topoGet?_of_value hwf hnv hnid
  have htruthy : truthy n.redundancy_group = true := by
    rw [hnrg]; simpa [truthy] using hg
  have hunfold : analyze_alarms T alarms =
      analyzeRedundancy T n (alarms.map (fun a => a.device_id)) alarms := by
    unfold analyze_alarms
    rw [hie]
    simp only [Bool.false_eq_true, if_false, ← hsorted, hget, htruthy, if_true]
  have hgroup : (topoValues T).filter
      (fun m => m.redundancy_group == n.redundancy_group) = groupMembers T g := by
    rw [hnrg]; rfl
  constructor
  · rintro ⟨m, hmG, hmnone⟩
    have hmfalse : (decide (m.id ∈ alarms.map (fun a => a.device_id))) = false := by
      simp only [decide_eq_false_iff_not]
      intro hc
      rcases List.mem_map.mp hc with ⟨a, ha, haid⟩
      exact hmnone a ha haid
    have hlt : ((groupMembers T g).filter
        (fun m => decide (m.id ∈ alarms.map (fun a => a.device_id)))).length ≠
        (groupMembers T g).length := by
      intro hc
      have := (List.filter_length_eq_length.mp hc) m hmG
      rw [hmfalse] at this
      cases this
    rw [hunfold]
    unfold analyzeRedundancy
    simp only [hgroup]
    rw [if_neg hlt]
    exact ⟨rfl, rfl⟩
  · intro hall
    have hfe : ((groupMembers T g).filter
        (fun m => decide (m.id ∈ alarms.map (fun a => a.device_id)))).length =
        (groupMembers T g).length := by
      apply List.filter_length_eq_length.mpr
      intro m hmG
      rcases hall m hmG with ⟨a, ha, haid⟩
      simp only [decide_eq_true_eq]
      exact List.mem_map.mpr ⟨a, ha, haid⟩
    rw [hunfold]
    unfold analyzeRedundancy
    simp only [hgroup]
    rw [if_pos hfe]
    exact ⟨rfl, rfl, n, rfl, hnrg⟩

/-- Two firewalls in one HA redundancy group. -/
def haTopo : Topology :=
  [("FW_A", { id := "FW_A", layer := 2, redundancy_group := some "fw-ha" }),
   ("FW_B", { id := "FW_B", layer := 2, redundancy_group := some "fw-ha" })]

theorem redundancy_group_severity_witness :
    (analyze_alarms haTopo
      [{ device_id := "FW_A", message := "Heartbeat Loss",
         severity := "WARNING", timestamp := none }]).severity = "WARNING" ∧
    (analyze_alarms haTopo
      [{ device_id := "FW_A", message := "Device Down",
         severity := "CRITICAL", timestamp := none },
       { device_id := "FW_B", message := "Device Down",
         severity := "CRITICAL", timestamp := none }]).severity = "CRITICAL" := by
  constructor
  · exact ((redundancy_group_severity haTopo "fw-ha" _ (by constructor <;> decide)
      (by decide) (by decide) (by decide)).1 (by decide)).1
  · exact ((redundancy_group_severity haTopo "fw-ha" _ (by constructor <;> decide)
      (by decide) (by decide) (by decide)).2 (by decide)).1

-- ## C9: topology validation

/-- C9 (amended, detection half): `validate_topology` returns `False` for
any topology containing a node with a truthy `parent_id` that is not a
key — it detects the dangling reference but only returns a boolean
(and logs); nothing raises. -/
theorem validate_topology_dangling (T : Topology) (e : String × NetworkNode)
    (he : e ∈ T) (hpar : truthy e.2.parent_id = true)
    (hdangle : topoHasKey T (e.2.parent_id.getD "") = false) :
    validate_topology T = false := by
  have hie : T.isEmpty = false := by
    cases T with
    | nil => cases he
    | cons x l => rfl
  unfold validate_topology
  rw [hie]
  simp only [Bool.false_eq_true, if_false]
  rw [Bool.eq_false_iff]
  intro hall
  have := List.all_eq_true.mp hall e he
  rw [hpar, hdangle] at this
  simp at this

/-- A topology with a dangling parent reference. -/
def dangTopo : Topology :=
  [("A", { id := "A", layer := 3, parent_id := some "GHOST" })]

/-- C9 counterexample: the dangling topology is only flagged by a `False`
return value — nothing raises, and `analyze_alarms` happily analyses the
malformed topology, returning its ordinary hierarchy-rule result. -/
theorem validate_topology_dangling_counterexample :
    validate_topology dangTopo = false ∧
    (analyze_alarms dangTopo
      [{ device_id := "A", message := "Interface Down",
         severity := "CRITICAL", timestamp := none }]).sop_key =
      "HIERARCHY_FAILURE" ∧
    (analyze_alarms dangTopo
      [{ device_id := "A", message := "Interface Down",
         severity := "CRITICAL", timestamp := none }]).root_cause_node =
      some { id := "A", layer := 3, parent_id := some "GHOST" } := by
  refine ⟨rfl, ?_, ?_⟩ <;> decide

theorem validate_topology_dangling_witness :
    validate_topology dangTopo = false :=
  validate_topology_dangling dangTopo
    ("A", { id := "A", layer := 3, parent_id := some "GHOST" })
    (by decide) (by decide) (by decide)

-- ## `inference_engine._sanitize_text`

/-- `takeWhile`/`dropWhile` split on Python whitespace. -/
def spanWS (cs : List Char) : List Char × List Char :=
  (cs.takeWhile isPyWS, cs.dropWhile isPyWS)

/-- Split on a maximal run of non-whitespace (`\S+`). -/
def spanNonWS (cs : List Char) : List Char × List Char :=
  (cs.takeWhile (fun c => !isPyWS c), cs.dropWhile (fun c => !isPyWS c))

/-- Try `(encrypted-password\s+)"[^"]+"` at the head; on a match return
the replacement `\1"********"` and the rest of the input.  The quantified
pieces are deterministic maximal runs (each greedy run is followed by a
character class it cannot match, so the backtracking regex engine agrees). -/
def tryPat1 (cs : List Char) : Option (List Char × List Char) :=
  let lit := "encrypted-password".toList
  if lit.isPrefixOf cs then
    let s0 := spanWS (cs.drop lit.length)
    if s0.1.isEmpty then none else
    match s0.2 with
    | '"' :: r2 =>
      let body := r2.takeWhile (fun c => !(c == '"'))
      match r2.dropWhile (fun c => !(c == '"')) with
      | '"' :: r4 =>
        if body.isEmpty then none
        else some (lit ++ s0.1 ++ ('"' :: ("********".toList ++ ['"'])), r4)
      | _ => none
    | _ => none
  else none

/-- Try `(password|secret)\s+(\d)\s+\S+`; replacement `\1 \2 ********`. -/
def tryPat2 (cs : List Char) : Option (List Char × List Char) :=
  let word :=
    if "password".toList.isPrefixOf cs then some "password".toList
    else if "secret".toList.isPrefixOf cs then some "secret".toList
    else none
  match word with
  | none => none
  | some w =>
    let s1 := spanWS (cs.drop w.length)
    if s1.1.isEmpty then none else
    match s1.2 with
    | d :: r2 =>
      if d.isDigit then
        let s2 := spanWS r2
        if s2.1.isEmpty then none else
        let s3 := spanNonWS s2.2
        if s3.1.isEmpty then none
        else some (w ++ (' ' :: d :: ' ' :: "********".toList), s3.2)
      else none
    | [] => none

/-- Try `(username\s+\S+\s+secret)\s+\d\s+\S+`; replacement
`\1 5 ********` (group 1 keeps its whitespace as matched). -/
def tryPat3 (cs : List Char) : Option (List Char × List Char) :=
  let lit := "username".toList
  if lit.isPrefixOf cs then
    let s1 := spanWS (cs.drop lit.length)
    if s1.1.isEmpty then none else
    let s2 := spanNonWS s1.2
    if s2.1.isEmpty then none else
    let s3 := spanWS s2.2
    if s3.1.isEmpty then none else
    if "secret".toList.isPrefixOf s3.2 then
      let s4 := spanWS (s3.2.drop 6)
      if s4.1.isEmpty then none else
      match s4.2 with
      | d :: r5 =>
        if d.isDigit then
          let s5 := spanWS r5
          if s5.1.isEmpty then none else
          let s6 := spanNonWS s5.2
          if s6.1.isEmpty then none
          else some ((lit ++ s1.1 ++ s2.1 ++ s3.1 ++ "secret".toList) ++
            (' ' :: '5' :: ' ' :: "********".toList), s6.2)
        else none
      | [] => none
    else none
  else none

/-- Try `(snmp-server community)\s+\S+`; replacement `\1 ********`. -/
def tryPat4 (cs : List Char) : Option (List Char × List Char) :=
  let lit := "snmp-server community".toList
  if lit.isPrefixOf cs then
    let s1 := spanWS (cs.drop lit.length)
    if s1.1.isEmpty then none else
    let s2 := spanNonWS s1.2
    if s2.1.isEmpty then none
    else some (lit ++ (' ' :: "********".toList), s2.2)
  else none

/-- `re.sub` scanning: leftmost non-overlapping matches, resuming after
each replacement.  Fuel-indexed for structural recursion; every match
consumes at least its literal prefix (≥ 6 characters), so fuel = input
length is never exhausted. -/
def subScan (tryPat : List Char → Option (List Char × List Char)) :
    Nat → List Char → List Char
  | 0, cs => cs
  | _ + 1, [] => []
  | fuel + 1, c :: rest =>
    match tryPat (c :: rest) with
    | some (rep, remaining) => rep ++ subScan tryPat fuel remaining
    | none => c :: subScan tryPat fuel rest

/-- One `re.sub(pattern, repl, s)`. -/
def reSub (tryPat : List Char → Option (List Char × List Char)) (s : String) :
    String :=
  ⟨subScan tryPat s.toList.length s.toList⟩

/-- `LogicalRCA._sanitize_text`: the four substitutions in source order. -/
def sanitize_text (s : String) : String :=
  reSub tryPat4 (reSub tryPat3 (reSub tryPat2 (reSub tryPat1 s)))

-- ## `inference_engine.LogicalRCA`

/-- One topology entry in the JSON dict form `LogicalRCA` consumes
(`isinstance(info, dict)`): the engine reads only `parent_id`,
`metadata.hw_inventory.psu_count` (`none` when absent or unparseable) and
`metadata.redundancy_type` (empty string when absent). -/
structure RcaInfo where
  parent_id : Option String := none
  psu_count : Option Int := none
  redundancy_type : String := ""
deriving DecidableEq, Inhabited

/-- `LogicalRCA` instance state.  `GOOGLE_API_KEY` is absent in the
modelled environment, so `_ensure_api_configured` can never flip
`_api_configured` to `True` or set a model; `config_dir` is only read on
the LLM path and is omitted. -/
structure RcaEngine where
  topology : List (String × RcaInfo)
  api_configured : Bool := false
deriving DecidableEq, Inhabited

/-- `LogicalRCA.__init__` on a dict topology. -/
def mkLogicalRCA (topo : List (String × RcaInfo)) : RcaEngine :=
  { topology := topo, api_configured := false }

/-- The `parent -> [children...]` map built in `__init__` (derived on
demand here; the source computes it once and never mutates it).  A falsy
`parent_id` (absent or empty) adds nothing. -/
def childrenMap (topo : List (String × RcaInfo)) : List (String × List String) :=
  topo.foldl (fun m e =>
    match e.2.parent_id with
    | some p => if p = "" then m else alistPush m p e.1
    | none => m) []

/-- `LogicalRCA._get_parent_id` (missing devices default to `{}`,
hence `None`). -/
def getParentId (topo : List (String × RcaInfo)) (dev : String) :
    Option String :=
  match alistGet? topo dev with
  | some i => i.parent_id
  | none => none

/-- Python `str.upper` restricted to ASCII. -/
def pyUpper (s : String) : String :=
  ⟨s.toList.map Char.toUpper⟩

/-- `LogicalRCA._get_psu_count`: `metadata.hw_inventory.psu_count` if
present (and parseable), else 2 if `metadata.redundancy_type` upper-cases
to `"PSU"`, else the default (1). -/
def getPsuCount (topo : List (String × RcaInfo)) (dev : String)
    (default : Int := 1) : Int :=
  match alistGet? topo dev with
  | none => default
  | some i =>
    match i.psu_count with
    | some n => n
    | none => if pyUpper i.redundancy_type = "PSU" then 2 else default

/-- `inference_engine.HealthStatus` (the GREEN/YELLOW/RED payloads are
never read). -/
inductive HealthStatus where
  | NORMAL
  | WARNING
  | CRITICAL
deriving DecidableEq, Inhabited

/-- The dict returned by `analyze_redundancy_depth`. -/
structure RDResult where
  status : HealthStatus
  reason : String
  impact_type : String
deriving DecidableEq, Inhabited

/-- `_ensure_api_configured` with no `GOOGLE_API_KEY` in the environment:
reports the memoized flag and never mutates the engine. -/
def ensureApiConfigured (E : RcaEngine) : Bool × RcaEngine :=
  (E.api_configured, E)

/-- `LogicalRCA.analyze_redundancy_depth`: the ordered local safety
rules on the sanitized, space-joined alert text.  The LLM branch (only
reachable when `_api_configured` is already true, which `mkLogicalRCA`
never produces) is an external collaborator; it is modelled from the
spec as its own exception fallback, since no model is available in the
modelled environment. -/
def analyze_redundancy_depth (E : RcaEngine) (device_id : String)
    (alerts : List String) : RDResult × RcaEngine :=
  if alerts.isEmpty then
    ({ status := HealthStatus.NORMAL, reason := "No active alerts detected.",
       impact_type := "NONE" }, E)
  else
    let joined := String.intercalate " " (alerts.map sanitize_text)
    if strContains joined "Power Supply: Dual Loss" ||
        strContains joined "Dual Loss" || strContains joined "Device Down" ||
        strContains joined "Thermal Shutdown" then
      ({ status := HealthStatus.CRITICAL,
         reason := "Device down / dual PSU loss / thermal shutdown detected (local safety rule).",
         impact_type := "Hardware/Physical" }, E)
    else
    let psu_count := getPsuCount E.topology device_id 1
    let psu_single_fail :=
      (strContains joined "Power Supply" && strContains joined "Failed" &&
        !(strContains joined "Dual")) ||
      (strContains joined "PSU" && strContains joined "Fail" &&
        !(strContains joined "Dual"))
    if psu_single_fail then
      if psu_count ≥ 2 then
        ({ status := HealthStatus.WARNING,
           reason := "Single PSU failure with redundancy (psu_count=" ++
             toString psu_count ++ ") (local safety rule).",
           impact_type := "Hardware/Redundancy" }, E)
      else
        ({ status := HealthStatus.CRITICAL,
           reason := "Single PSU failure without redundancy (psu_count=" ++
             toString psu_count ++ ") (local safety rule).",
           impact_type := "Hardware/Physical" }, E)
    else
    let fan_fail := strContains joined "Fan Fail" ||
      (strContains joined "FAN" && strContains joined "Fail") ||
      (strContains joined "Fan" && strContains joined "Fail")
    let overheat_hint := strContains joined "High Temperature" ||
      strContains joined "Overheat" || strContains joined "Thermal"
    if fan_fail then
      if overheat_hint then
        ({ status := HealthStatus.CRITICAL,
           reason := "Fan failure with overheat/thermal symptom detected (local safety rule).",
           impact_type := "Hardware/Physical" }, E)
      else
        ({ status := HealthStatus.WARNING,
           reason := "Fan failure detected. Service likely continues but risk of thermal escalation (local safety rule).",
           impact_type := "Hardware/Degraded" }, E)
    else
    let joined_lower := pyLower joined
    let mem_symptom := strContains joined "Memory High" ||
      strContains joined "Memory Leak" ||
      (strContains joined_lower "memory" &&
        (strContains joined_lower "leak" || strContains joined_lower "high"))
    let oom_hint := strContains joined "Out of memory" ||
      strContains joined "OOM" || strContains joined_lower "killed process" ||
      strContains joined_lower "kernel panic"
    if mem_symptom then
      if oom_hint then
        ({ status := HealthStatus.CRITICAL,
           reason := "Memory leak/high with OOM/crash symptom detected (local safety rule).",
           impact_type := "Software/Resource" }, E)
      else
        ({ status := HealthStatus.WARNING,
           reason := "Memory high/leak symptom detected. Likely degraded but not down yet (local safety rule).",
           impact_type := "Software/Resource" }, E)
    else
    let ok := ensureApiConfigured E
    if ok.1 = false then
      ({ status := HealthStatus.WARNING,
         reason := "API key not configured. Manual analysis required.",
         impact_type := "UNKNOWN" }, ok.2)
    else
      ({ status := HealthStatus.WARNING,
         reason := "AI Analysis Failed: model unavailable",
         impact_type := "AI_ERROR" }, ok.2)

/-- `LogicalRCA._is_connection_loss`. -/
def is_connection_loss (msg : String) : Bool :=
  strContains msg "Connection Lost" || strContains msg "Link Down" ||
  strContains msg "Port Down" || strContains msg "Unreachable"

/-- The `device_id -> [messages...]` grouping at the top of `analyze`. -/
def msgMap (alarms : List Alarm) : List (String × List String) :=
  alarms.foldl (fun m a => alistPush m a.device_id a.message) []

/-- Python's `f"{x:.2f}"` on the ratio: two-decimal rendering, modelled
with arithmetic half-up rounding (the CPython formatting rounds the
binary double half-to-even; the two agree away from exact `.005`
boundaries, which the ratios of small child counts do not hit). -/
def format2dp (q : ℚ) : String :=
  let n : Int := round (q * 100)
  let ip := n / 100
  let fp := (n % 100).toNat
  toString ip ++ "." ++ (if fp < 10 then "0" ++ toString fp else toString fp)

/-- The active-investigation report synthesized for a silent-failure
suspect. -/
def silentReport (parent_id : String) (affected total : Nat) (ratio : ℚ) :
    String :=
  "[Silent Failure Heuristic]\n" ++
  "- Suspected upstream device: " ++ parent_id ++ "\n" ++
  "- Affected children: " ++ toString affected ++ "/" ++ toString total ++
    " (ratio=" ++ format2dp ratio ++ ")\n" ++
  "- Evidence: children raised Connection Lost/Unreachable simultaneously\n" ++
  "- Recommended checks:\n" ++
  "  1) Check uplink interface counters/errors on " ++ parent_id ++ "\n" ++
  "  2) Verify MAC table / ARP / STP state changes around incident time\n" ++
  "  3) Compare syslog/event logs for link flap, STP re-convergence\n" ++
  "  4) Run targeted ping/ARP from CORE side to affected APs\n"

/-- The per-suspect record of `_detect_silent_failures`. -/
structure SilentInfo where
  children : List String
  evidence_count : Nat
  total_children : Nat
  ratio : ℚ
  report : String
deriving DecidableEq, Inhabited

/-- `LogicalRCA._detect_silent_failures`: a parent with no alarms of its
own is suspected when at least `SILENT_MIN_CHILDREN = 2` of its children
and at least `SILENT_RATIO = 0.5` of them report a connection-loss
message. -/
def detect_silent_failures (topo : List (String × RcaInfo))
    (msg_map : List (String × List String)) : List (String × SilentInfo) :=
  (childrenMap topo).filterMap (fun e =>
    if e.2.isEmpty then none
    else if alistHasKey msg_map e.1 then none
    else
      let affected := e.2.filter
        (fun c => ((alistGet? msg_map c).getD []).any is_connection_loss)
      if affected.isEmpty then none
      else
        let total := e.2.length
        let ratio : ℚ := (affected.length : ℚ) / ((max total 1 : Nat) : ℚ)
        if affected.length ≥ 2 ∧ ratio ≥ 1/2 then
          some (e.1,
            { children := affected, evidence_count := affected.length,
              total_children := total, ratio := ratio,
              report := silentReport e.1 affected.length total ratio })
        else none)

/-- The pseudo-alarm message added for each silent suspect. -/
def silentPseudoMsg : String :=
  "Silent Failure Suspected (Derived from child Connection Lost)"

/-- A root-cause candidate, the dict `analyze` emits ("type" is `ctype`;
`analyst_report` and `auto_investigation` only appear on silent-failure
candidates and default to empty elsewhere). -/
structure Candidate where
  id : String
  label : String
  prob : ℚ
  ctype : String
  tier : Nat
  reason : String
  analyst_report : String := ""
  auto_investigation : List String := []
deriving DecidableEq, Inhabited

/-- The `"No alerts detected"` sentinel. -/
def sentinelCandidate : Candidate :=
  { id := "SYSTEM", label := "No alerts detected", prob := 0,
    ctype := "Normal", tier := 0, reason := "No active alerts detected." }

/-- `parent_is_alarmed` over the keys of the augmented message map. -/
def parentIsAlarmed (topo : List (String × RcaInfo))
    (msg_map2 : List (String × List String)) (dev : String) : Bool :=
  match getParentId topo dev with
  | some p => (!(p = "")) && alistHasKey msg_map2 p
  | none => false

/-- `parent_is_silent_suspect`. -/
def parentIsSilentSuspect (topo : List (String × RcaInfo))
    (suspects : List (String × SilentInfo)) (dev : String) : Bool :=
  match getParentId topo dev with
  | some p => (!(p = "")) && alistHasKey suspects p
  | none => false

/-- The body of the per-device loop of `analyze`: branches (B) downstream
symptom under a silent suspect, (C) cascade suppression, (E) silent
suspect, and the default confidence mapping over
`analyze_redundancy_depth`. -/
def classifyDevice (E : RcaEngine) (suspects : List (String × SilentInfo))
    (msg_map2 : List (String × List String)) (device_id : String)
    (messages : List String) : Candidate × RcaEngine :=
  if parentIsSilentSuspect E.topology suspects device_id &&
      messages.any is_connection_loss then
    ({ id := device_id, label := String.intercalate " / " messages,
       prob := 0.4, ctype := "Network/ConnectionLost", tier := 3,
       reason := "Downstream symptom under suspected silent failure parent (parent=" ++
         (getParentId E.topology device_id).getD "" ++ ")." }, E)
  else if messages.any (fun m => strContains m "Unreachable") &&
      parentIsAlarmed E.topology msg_map2 device_id then
    ({ id := device_id, label := String.intercalate " / " messages,
       prob := 0.2, ctype := "Network/Unreachable", tier := 3,
       reason := "Downstream unreachable due to upstream alarm (parent=" ++
         (getParentId E.topology device_id).getD "" ++ ")." }, E)
  else
    let ar := analyze_redundancy_depth E device_id messages
    match alistGet? suspects device_id with
    | some info =>
      ({ id := device_id, label := String.intercalate " / " messages,
         prob := 0.8, ctype := "Network/SilentFailure", tier := 1,
         reason := "Silent failure suspected: " ++
           toString info.evidence_count ++ "/" ++
           toString info.total_children ++ " children affected.",
         analyst_report := info.report,
         auto_investigation :=
           ["Pull interface counters/errors (uplinks)",
            "Check STP/MAC flaps",
            "Ping/ARP reachability tests from upstream",
            "Correlate syslog around incident time"] }, ar.2)
    | none =>
      if ar.1.impact_type = "UNKNOWN" ∧
          strContains ar.1.reason "API key not configured" then
        ({ id := device_id, label := String.intercalate " / " messages,
           prob := 0.5, ctype := ar.1.impact_type, tier := 3,
           reason := ar.1.reason }, ar.2)
      else
        match ar.1.status with
        | HealthStatus.CRITICAL =>
          ({ id := device_id, label := String.intercalate " / " messages,
             prob := 0.9, ctype := ar.1.impact_type, tier := 1,
             reason := ar.1.reason }, ar.2)
        | HealthStatus.WARNING =>
          ({ id := device_id, label := String.intercalate " / " messages,
             prob := 0.7, ctype := ar.1.impact_type, tier := 2,
             reason := ar.1.reason }, ar.2)
        | HealthStatus.NORMAL =>
          ({ id := device_id, label := String.intercalate " / " messages,
             prob := 0.3, ctype := ar.1.impact_type, tier := 3,
             reason := ar.1.reason }, ar.2)

/-- The `for device_id, messages in msg_map.items()` loop, threading the
engine (only the LLM memoization could ever mutate it). -/
def analyzeLoop (suspects : List (String × SilentInfo))
    (msg_map2 : List (String × List String)) :
    RcaEngine → List (String × List String) → List Candidate × RcaEngine
  | E, [] => ([], E)
  | E, e :: rest =>
    let r1 := classifyDevice E suspects msg_map2 e.1 e.2
    let r2 := analyzeLoop suspects msg_map2 r1.2 rest
    (r1.1 :: r2.1, r2.2)

/-- `LogicalRCA.analyze`: empty input yields the sentinel; otherwise
group messages by device, detect silent suspects, add their
pseudo-alarms, classify every device, and sort by descending probability
(Python's stable `sort(key=..., reverse=True)` is modelled by insertion
sort on `≥`, the stable sort for that order). -/
def analyze (E : RcaEngine) (alarms : List Alarm) :
    List Candidate × RcaEngine :=
  if alarms.isEmpty then ([sentinelCandidate], E)
  else
    let msg_map := msgMap alarms
    let suspects := detect_silent_failures E.topology msg_map
    let msg_map2 := suspects.foldl (fun m e => alistPush m e.1 silentPseudoMsg)
      msg_map
    let lr := analyzeLoop suspects msg_map2 E msg_map2
    (List.insertionSort (fun c1 c2 : Candidate => c2.prob ≤ c1.prob) lr.1,
     lr.2)

-- ## Support lemmas for `analyze`

theorem alistGet?_mem {β : Type} {m : List (String × β)} {k : String} {v : β}
    (h : alistGet? m k = some v) : (k, v) ∈ m := by
  induction m with
  | nil => cases h
  | cons e rest ih =>
    by_cases hk : e.1 = k
    · simp only [alistGet?, hk, if_true, Option.some.injEq] at h
      have : e = (k, v) := Prod.ext hk h
      exact this ▸ List.mem_cons_self _ _
    · simp only [alistGet?, hk, if_false] at h
      exact List.mem_cons_of_mem _ (ih h)

/-- Generic accumulator fold used by `msgMap`, `childrenMap` and the
pseudo-alarm injection. -/
def pushFold {α β : Type} (sel : α → Option (String × β)) (l : List α)
    (m : List (String × List β)) : List (String × List β) :=
  l.foldl (fun m a =>
    match sel a with
    | some kv => alistPush m kv.1 kv.2
    | none => m) m

theorem pushFold_cons_none {α β : Type} (sel : α → Option (String × β))
    {a : α} (l : List α) (m : List (String × List β)) (h : sel a = none) :
    pushFold sel (a :: l) m = pushFold sel l m := by
  simp only [pushFold, List.foldl_cons, h]

theorem pushFold_cons_some {α β : Type} (sel : α → Option (String × β))
    {a : α} {kv : String × β} (l : List α) (m : List (String × List β))
    (h : sel a = some kv) :
    pushFold sel (a :: l) m = pushFold sel l (alistPush m kv.1 kv.2) := by
  simp only [pushFold, List.foldl_cons, h]

theorem pushFold_isSome {α β : Type} (sel : α → Option (String × β))
    (l : List α) (m : List (String × List β)) (k : String) :
    (alistGet? (pushFold sel l m) k).isSome ↔
      ((alistGet? m k).isSome ∨ ∃ a ∈ l, ∃ v, sel a = some (k, v)) := by
  induction l generalizing m with
  | nil => simp [pushFold]
  | cons a rest ih =>
    cases hsel : sel a with
    | none =>
      rw [pushFold_cons_none sel rest m hsel, ih]
      constructor
      · rintro (h | ⟨a', ha', v, hv⟩)
        · exact Or.inl h
        · exact Or.inr ⟨a', List.mem_cons_of_mem _ ha', v, hv⟩
      · rintro (h | ⟨a', ha', v, hv⟩)
        · exact Or.inl h
        · rcases List.mem_cons.mp ha' with h' | h'
          · rw [h'] at hv; rw [hv] at hsel; cases hsel
          · exact Or.inr ⟨a', h', v, hv⟩
    | some kv =>
      rw [pushFold_cons_some sel rest m hsel, ih, alistGet?_push_isSome_iff]
      constructor
      · rintro ((h | h) | ⟨a', ha', v, hv⟩)
        · exact Or.inl h
        · refine Or.inr ⟨a, by simp, kv.2, ?_⟩
          rw [hsel, h]
        · exact Or.inr ⟨a', List.mem_cons_of_mem _ ha', v, hv⟩
      · rintro (h | ⟨a', ha', v, hv⟩)
        · exact Or.inl (Or.inl h)
        · rcases List.mem_cons.mp ha' with h' | h'
          · rw [h'] at hv
            rw [hv] at hsel
            cases hsel
            exact Or.inl (Or.inr rfl)
          · exact Or.inr ⟨a', h', v, hv⟩

theorem pushFold_untouched {α β : Type} (sel : α → Option (String × β))
    (l : List α) (m : List (String × List β)) (k : String)
    (h : ∀ a ∈ l, ∀ v, sel a = some (k, v) → False) :
    alistGet? (pushFold sel l m) k = alistGet? m k := by
  induction l generalizing m with
  | nil => rfl
  | cons a rest ih =>
    cases hsel : sel a with
    | none =>
      rw [pushFold_cons_none sel rest m hsel]
      exact ih _ (fun a' ha' v hv => h a' (List.mem_cons_of_mem _ ha') v hv)
    | some kv =>
      rw [pushFold_cons_some sel rest m hsel]
      have hk : kv.1 ≠ k := by
        intro hc
        apply h a (by simp) kv.2
        rw [hsel]
        have : kv = (k, kv.2) := Prod.ext hc rfl
        rw [this]
      rw [ih _ (fun a' ha' v hv => h a' (List.mem_cons_of_mem _ ha') v hv)]
      exact alistGet?_push_ne m kv.1 k kv.2 (fun hc => hk hc.symm)

theorem pushFold_keys_nodup {α β : Type} (sel : α → Option (String × β))
    (l : List α) (m : List (String × List β))
    (h : (alistKeys m).Nodup) : (alistKeys (pushFold sel l m)).Nodup := by
  induction l generalizing m with
  | nil => exact h
  | cons a rest ih =>
    cases hsel : sel a with
    | none => rw [pushFold_cons_none sel rest m hsel]; exact ih _ h
    | some kv =>
      rw [pushFold_cons_some sel rest m hsel]
      exact ih _ (alistKeys_push_nodup m kv.1 kv.2 h)

theorem pushFold_value_inv {α β : Type} (sel : α → Option (String × β))
    (Q : String → β → Prop) (l : List α) (m : List (String × List β))
    (hm : ∀ P cs, alistGet? m P = some cs → ∀ x ∈ cs, Q P x)
    (hl : ∀ a ∈ l, ∀ k v, sel a = some (k, v) → Q k v) :
    ∀ P cs, alistGet? (pushFold sel l m) P = some cs → ∀ x ∈ cs, Q P x := by
  induction l generalizing m with
  | nil => exact hm
  | cons a rest ih =>
    cases hsel : sel a with
    | none =>
      rw [pushFold_cons_none sel rest m hsel]
      exact ih _ hm (fun a' ha' => hl a' (List.mem_cons_of_mem _ ha'))
    | some kv =>
      rw [pushFold_cons_some sel rest m hsel]
      apply ih
      · intro P cs hget x hx
        by_cases hP : P = kv.1
        · rw [hP, alistGet?_push_same] at hget
          have hcs : cs = ((alistGet? m kv.1).getD []) ++ [kv.2] :=
            (Option.some.inj hget).symm
          subst hcs
          rcases List.mem_append.mp hx with h' | h'
          · cases hget' : alistGet? m kv.1 with
            | none => rw [hget'] at h'; simp at h'
            | some o =>
              rw [hget'] at h'
              rw [hP]
              exact hm kv.1 o hget' x h'
          · have hxv : x = kv.2 := by simpa using h'
            rw [hP, hxv]
            apply hl a (by simp) kv.1 kv.2
            rw [hsel]
        · rw [alistGet?_push_ne m kv.1 P kv.2 hP] at hget
          exact hm P cs hget x hx
      · exact fun a' ha' => hl a' (List.mem_cons_of_mem _ ha')

/-- The per-parent body of `_detect_silent_failures` (the lambda of the
`filterMap` in `detect_silent_failures`). -/
def detectOne (msg_map : List (String × List String))
    (e : String × List String) : Option (String × SilentInfo) :=
  if e.2.isEmpty then none
  else if alistHasKey msg_map e.1 then none
  else
    let affected := e.2.filter
      (fun c => ((alistGet? msg_map c).getD []).any is_connection_loss)
    if affected.isEmpty then none
    else
      let total := e.2.length
      let ratio : ℚ := (affected.length : ℚ) / ((max total 1 : Nat) : ℚ)
      if affected.length ≥ 2 ∧ ratio ≥ 1/2 then
        some (e.1,
          { children := affected, evidence_count := affected.length,
            total_children := total, ratio := ratio,
            report := silentReport e.1 affected.length total ratio })
      else none

theorem detect_eq_filterMap (topo : List (String × RcaInfo))
    (msg_map : List (String × List String)) :
    detect_silent_failures topo msg_map =
      (childrenMap topo).filterMap (detectOne msg_map) := rfl

theorem detectOne_some_inv {msg_map : List (String × List String)}
    {e : String × List String} {P : String} {info : SilentInfo}
    (h : detectOne msg_map e = some (P, info)) :
    P = e.1 ∧ alistHasKey msg_map e.1 = false := by
  simp only [detectOne] at h
  split at h
  · cases h
  · split at h
    · cases h
    · rename_i hnk
      split at h
      · cases h
      · split at h
        · injection h with h'
          injection h' with hP hinfo
          exact ⟨hP.symm, by simpa using hnk⟩
        · cases h

theorem detect_keys_not_alarmed {topo : List (String × RcaInfo)}
    {msg_map : List (String × List String)} {P : String} {info : SilentInfo}
    (h : (P, info) ∈ detect_silent_failures topo msg_map) :
    alistHasKey msg_map P = false := by
  rw [detect_eq_filterMap] at h
  rcases List.mem_filterMap.mp h with ⟨e, _, hfe⟩
  rcases detectOne_some_inv hfe with ⟨hP, hnk⟩
  rw [hP]
  exact hnk

theorem keys_filterMap_sublist {γ : Type}
    (f : (String × List String) → Option (String × γ))
    (hf : ∀ e kv, f e = some kv → kv.1 = e.1) (l : List (String × List String)) :
    List.Sublist (alistKeys (l.filterMap f)) (alistKeys l) := by
  induction l with
  | nil => exact List.Sublist.refl _
  | cons e rest ih =>
    cases hfe : f e with
    | none =>
      rw [List.filterMap_cons_none hfe]
      refine ih.trans ?_
      simp only [alistKeys, List.map_cons]
      exact List.sublist_cons_self _ _
    | some kv =>
      rw [List.filterMap_cons_some hfe]
      have hk : kv.1 = e.1 := hf e kv hfe
      simp only [alistKeys, List.map_cons, hk]
      exact List.Sublist.cons₂ _ ih

theorem foldl_congr_fun {α β : Type} (f g : β → α → β)
    (h : ∀ b a, f b a = g b a) : ∀ (l : List α) (b : β),
    l.foldl f b = l.foldl g b := by
  intro l
  induction l with
  | nil => intro b; rfl
  | cons a rest ih =>
    intro b
    rw [List.foldl_cons, List.foldl_cons, h, ih]

/-- The `sel` of `childrenMap` as a `pushFold`. -/
def childSel (e : String × RcaInfo) : Option (String × String) :=
  match e.2.parent_id with
  | some p => if p = "" then none else some (p, e.1)
  | none => none

theorem childrenMap_eq (topo : List (String × RcaInfo)) :
    childrenMap topo = pushFold childSel topo [] := by
  unfold childrenMap pushFold
  apply foldl_congr_fun
  intro m e
  cases hp : e.2.parent_id with
  | none => simp [childSel, hp]
  | some p =>
    by_cases hpe : p = "" <;> simp [childSel, hp, hpe]

theorem childrenMap_keys_nodup (topo : List (String × RcaInfo)) :
    (alistKeys (childrenMap topo)).Nodup := by
  rw [childrenMap_eq]
  exact pushFold_keys_nodup _ topo [] (by simp [alistKeys])

theorem detect_keys_nodup (topo : List (String × RcaInfo))
    (msg_map : List (String × List String)) :
    (alistKeys (detect_silent_failures topo msg_map)).Nodup := by
  rw [detect_eq_filterMap]
  refine List.Nodup.sublist
    (keys_filterMap_sublist (detectOne msg_map) ?_ _)
    (childrenMap_keys_nodup topo)
  intro e kv h
  cases kv with
  | mk P info => exact (detectOne_some_inv h).1

theorem ard_state (E : RcaEngine) (d : String) (msgs : List String) :
    (analyze_redundancy_depth E d msgs).2 = E := by
  simp only [analyze_redundancy_depth, ensureApiConfigured]
  repeat (first | rfl | split)

theorem classify_state (E : RcaEngine) (sus : List (String × SilentInfo))
    (m2 : List (String × List String)) (d : String) (msgs : List String) :
    (classifyDevice E sus m2 d msgs).2 = E := by
  simp only [classifyDevice]
  repeat (first | rfl | exact ard_state E d msgs | split)

theorem classifyDevice_id (E : RcaEngine) (sus : List (String × SilentInfo))
    (m2 : List (String × List String)) (d : String) (msgs : List String) :
    (classifyDevice E sus m2 d msgs).1.id = d := by
  simp only [classifyDevice]
  repeat (first | rfl | split)

theorem analyzeLoop_state (sus : List (String × SilentInfo))
    (m2 : List (String × List String)) :
    ∀ (l : List (String × List String)) (E : RcaEngine),
      (analyzeLoop sus m2 E l).2 = E := by
  intro l
  induction l with
  | nil => intro E; rfl
  | cons e rest ih =>
    intro E
    simp only [analyzeLoop]
    rw [ih, classify_state]

theorem analyzeLoop_fst (sus : List (String × SilentInfo))
    (m2 : List (String × List String)) :
    ∀ (l : List (String × List String)) (E : RcaEngine),
      (analyzeLoop sus m2 E l).1 =
        l.map (fun e => (classifyDevice E sus m2 e.1 e.2).1) := by
  intro l
  induction l with
  | nil => intro E; rfl
  | cons e rest ih =>
    intro E
    simp only [analyzeLoop, List.map_cons]
    rw [classify_state, ih]

theorem analyze_state (E : RcaEngine) (alarms : List Alarm) :
    (analyze E alarms).2 = E := by
  unfold analyze
  split
  · rfl
  · exact analyzeLoop_state _ _ _ _

/-- The augmented message map (`msg_map` with the suspects' pseudo-alarms
appended), as `analyze` computes it. -/
def msgMap2 (topo : List (String × RcaInfo)) (alarms : List Alarm) :
    List (String × List String) :=
  pushFold (fun e => some (e.1, silentPseudoMsg))
    (detect_silent_failures topo (msgMap alarms)) (msgMap alarms)

theorem analyze_fst (E : RcaEngine) (alarms : List Alarm)
    (h : alarms.isEmpty = false) :
    (analyze E alarms).1 =
      List.insertionSort (fun c1 c2 : Candidate => c2.prob ≤ c1.prob)
        ((msgMap2 E.topology alarms).map (fun e =>
          (classifyDevice E (detect_silent_failures E.topology (msgMap alarms))
            (msgMap2 E.topology alarms) e.1 e.2).1)) := by
  unfold analyze
  rw [h]
  simp only [Bool.false_eq_true, if_false]
  rw [show (detect_silent_failures E.topology (msgMap alarms)).foldl
      (fun m e => alistPush m e.1 silentPseudoMsg) (msgMap alarms) =
      msgMap2 E.topology alarms from rfl]
  rw [analyzeLoop_fst]

/-- C6: `analyze` neither reads nor leaves behind any mutated engine
state (with no API key, `_ensure_api_configured` cannot memoize
anything), so a second call on the same instance with identical alarms
and topology returns the identical candidate list. -/
theorem analyze_idempotent (topo : List (String × RcaInfo))
    (alarms : List Alarm) :
    (analyze (mkLogicalRCA topo) alarms).1 =
      (analyze ((analyze (mkLogicalRCA topo) alarms).2) alarms).1 := by
  rw [analyze_state]

theorem alistPush_ne_nil {β : Type} (m : List (String × List β)) (k : String)
    (v : β) : alistPush m k v ≠ [] := by
  cases m with
  | nil => simp [alistPush]
  | cons e rest =>
    unfold alistPush
    by_cases h : e.1 = k <;> simp [h]

theorem pushFold_ne_nil {α β : Type} (sel : α → Option (String × β))
    (l : List α) (m : List (String × List β)) (h : m ≠ []) :
    pushFold sel l m ≠ [] := by
  induction l generalizing m with
  | nil => exact h
  | cons a rest ih =>
    cases hsel : sel a with
    | none => rw [pushFold_cons_none sel rest m hsel]; exact ih _ h
    | some kv =>
      rw [pushFold_cons_some sel rest m hsel]
      exact ih _ (alistPush_ne_nil m kv.1 kv.2)

theorem msgMap_eq (alarms : List Alarm) :
    msgMap alarms =
      pushFold (fun a => some (a.device_id, a.message)) alarms [] := rfl

theorem msgMap_ne_nil (alarms : List Alarm) (h : alarms ≠ []) :
    msgMap alarms ≠ [] := by
  cases alarms with
  | nil => exact absurd rfl h
  | cons a rest =>
    rw [msgMap_eq, pushFold_cons_some _ rest [] rfl]
    exact pushFold_ne_nil _ _ _ (alistPush_ne_nil [] a.device_id a.message)

theorem msgMap2_ne_nil (topo : List (String × RcaInfo)) (alarms : List Alarm)
    (h : alarms ≠ []) : msgMap2 topo alarms ≠ [] :=
  pushFold_ne_nil _ _ _ (msgMap_ne_nil alarms h)

/-- C7: the empty alarm list yields exactly the `"Normal"` sentinel at
confidence 0, and any non-empty alarm list yields a non-empty candidate
list. -/
theorem analyze_sentinel_and_nonempty (topo : List (String × RcaInfo))
    (alarms : List Alarm) :
    (analyze (mkLogicalRCA topo) []).1 = [sentinelCandidate] ∧
    (alarms ≠ [] → (analyze (mkLogicalRCA topo) alarms).1 ≠ []) := by
  constructor
  · rfl
  · intro hne
    have hie : alarms.isEmpty = false := by
      cases alarms with
      | nil => exact absurd rfl hne
      | cons a l => rfl
    rw [analyze_fst _ _ hie]
    intro hc
    have hperm := List.perm_insertionSort
      (fun c1 c2 : Candidate => c2.prob ≤ c1.prob)
      ((msgMap2 (mkLogicalRCA topo).topology alarms).map (fun e =>
        (classifyDevice (mkLogicalRCA topo)
          (detect_silent_failures (mkLogicalRCA topo).topology (msgMap alarms))
          (msgMap2 (mkLogicalRCA topo).topology alarms) e.1 e.2).1))
    rw [hc] at hperm
    have hmap := hperm.symm.eq_nil
    have hmm2 := List.map_eq_nil_iff.mp hmap
    exact msgMap2_ne_nil topo alarms hne hmm2

theorem analyze_sentinel_and_nonempty_witness :
    (analyze (mkLogicalRCA []) []).1 = [sentinelCandidate] ∧
    (analyze (mkLogicalRCA [])
      [{ device_id := "A", message := "x", severity := "INFO",
         timestamp := none }]).1 ≠ [] :=
  ⟨(analyze_sentinel_and_nonempty [] []).1,
   (analyze_sentinel_and_nonempty []
     [{ device_id := "A", message := "x", severity := "INFO",
        timestamp := none }]).2 (by decide)⟩

theorem pushFoldPseudo_get_suspect (sus : List (String × SilentInfo))
    (m : List (String × List String)) (P : String)
    (hnd : (alistKeys sus).Nodup) (hP : P ∈ alistKeys sus)
    (hnk : alistHasKey m P = false) :
    alistGet? (pushFold (fun e => some (e.1, silentPseudoMsg)) sus m) P =
      some [silentPseudoMsg] := by
  induction sus generalizing m with
  | nil => cases hP
  | cons e rest ih =>
    rw [pushFold_cons_some _ rest m rfl]
    simp only [alistKeys, List.map_cons, List.nodup_cons] at hnd
    by_cases he : e.1 = P
    · have hPrest : P ∉ alistKeys rest := he ▸ hnd.1
      rw [pushFold_untouched]
      · rw [he, alistGet?_push_same]
        have hmnone : alistGet? m P = none := by
          cases h : alistGet? m P with
          | none => rfl
          | some v => rw [alistHasKey, h] at hnk; cases hnk
        rw [hmnone]
        rfl
      · intro a ha v hv
        have : a.1 = P := congrArg Prod.fst (Option.some.inj hv)
        exact hPrest (this ▸ List.mem_map_of_mem (fun p => p.1) ha)
    · have hPrest : P ∈ alistKeys rest := by
        rcases List.mem_cons.mp hP with h | h
        · exact absurd h.symm he
        · exact h
      have hnk' : alistHasKey (alistPush m e.1 silentPseudoMsg) P = false := by
        rw [alistHasKey, alistGet?_push_ne m e.1 P _ (fun hc => he hc.symm)]
        exact hnk
      exact ih _ hnd.2 hPrest hnk'

theorem childrenMap_value (topo : List (String × RcaInfo)) :
    ∀ P cs, alistGet? (childrenMap topo) P = some cs → ∀ x ∈ cs,
      ∃ en ∈ topo, en.1 = x ∧ en.2.parent_id = some P ∧ P ≠ "" := by
  rw [childrenMap_eq]
  apply pushFold_value_inv
  · intro P cs hget x _
    cases hget
  · intro a ha k v hsel
    unfold childSel at hsel
    split at hsel
    · rename_i p hp
      by_cases hpe : p = ""
      · rw [if_pos hpe] at hsel; cases hsel
      · rw [if_neg hpe] at hsel
        have h1 : p = k := congrArg Prod.fst (Option.some.inj hsel)
        have h2 : a.1 = v := congrArg Prod.snd (Option.some.inj hsel)
        exact ⟨a, ha, h2, by rw [hp, h1], h1 ▸ hpe⟩
    · cases hsel

theorem msgMap_keys_nodup (alarms : List Alarm) :
    (alistKeys (msgMap alarms)).Nodup := by
  rw [msgMap_eq]
  exact pushFold_keys_nodup _ alarms [] (by simp [alistKeys])

theorem msgMap2_keys_nodup (topo : List (String × RcaInfo))
    (alarms : List Alarm) : (alistKeys (msgMap2 topo alarms)).Nodup :=
  pushFold_keys_nodup _ _ _ (msgMap_keys_nodup alarms)

theorem msgMap2_get_alarmed (topo : List (String × RcaInfo))
    (alarms : List Alarm) (d : String) (v : List String)
    (hv : alistGet? (msgMap alarms) d = some v) :
    alistGet? (msgMap2 topo alarms) d = some v := by
  unfold msgMap2
  rw [pushFold_untouched]
  · exact hv
  · intro e he v' hv'
    have h1 : e.1 = d := congrArg Prod.fst (Option.some.inj hv')
    have h2 : alistHasKey (msgMap alarms) e.1 = false := by
      cases e with
      | mk a b => exact detect_keys_not_alarmed he
    rw [h1, alistHasKey, hv] at h2
    cases h2

/-- C2 (amended): whenever parent `P` carries no alarms of its own while
at least 2 of its children, and at least half of its children, report a
connection-loss message — and `P`'s own parent is not itself a detected
silent-failure suspect — the output of `analyze` contains a
`Network/SilentFailure` candidate for `P` at confidence 0.8, and every
affected child appears strictly below it, at confidence 0.4. -/
theorem silent_parent_flagged (E : RcaEngine) (alarms : List Alarm)
    (P : String) (cs : List String)
    (hknd : (alistKeys E.topology).Nodup)
    (hchild : alistGet? (childrenMap E.topology) P = some cs)
    (hnoal : alistHasKey (msgMap alarms) P = false)
    (hmin : 2 ≤ (cs.filter (fun c =>
      ((alistGet? (msgMap alarms) c).getD []).any is_connection_loss)).length)
    (hhalf : cs.length ≤ 2 * (cs.filter (fun c =>
      ((alistGet? (msgMap alarms) c).getD []).any is_connection_loss)).length)
    (hamend : parentIsSilentSuspect E.topology
      (detect_silent_failures E.topology (msgMap alarms)) P = false) :
    (∃ c ∈ (analyze E alarms).1,
      c.id = P ∧ c.ctype = "Network/SilentFailure" ∧ c.prob = 0.8) ∧
    (∀ c ∈ (analyze E alarms).1,
      c.id ∈ cs.filter (fun c =>
        ((alistGet? (msgMap alarms) c).getD []).any is_connection_loss) →
      c.prob = 0.4 ∧ c.prob < 0.8) := by
  have hane : alarms ≠ [] := by
    intro hc
    subst hc
    have hfe : (cs.filter (fun c =>
        ((alistGet? (msgMap ([] : List Alarm)) c).getD []).any
          is_connection_loss)) = [] := by
      simp [msgMap, alistGet?]
    rw [hfe] at hmin
    simp at hmin
  have hie : alarms.isEmpty = false := by
    cases alarms with
    | nil => exact absurd rfl hane
    | cons a l => rfl
  have hcs2 : 2 ≤ cs.length := le_trans hmin (List.length_filter_le _ _)
  have hcsne : ¬ (cs.isEmpty = true) := by
    cases cs with
    | nil => simp at hcs2
    | cons x l => simp
  have haffne : ¬ ((cs.filter (fun c =>
      ((alistGet? (msgMap alarms) c).getD []).any
        is_connection_loss)).isEmpty = true) := by
    rw [List.isEmpty_iff]
    intro hc
    rw [hc] at hmin
    simp at hmin
  have hnoal' : ¬ (alistHasKey (msgMap alarms) P = true) := by
    rw [hnoal]
    simp
  have hratio : ((cs.filter (fun c =>
      ((alistGet? (msgMap alarms) c).getD []).any
        is_connection_loss)).length : ℚ) /
      ((max cs.length 1 : Nat) : ℚ) ≥ 1/2 := by
    have hmax : max cs.length 1 = cs.length := Nat.max_eq_left (by omega)
    have hpos : (0 : ℚ) < ((cs.length : Nat) : ℚ) := by
      exact_mod_cast (by omega : 0 < cs.length)
    rw [hmax, ge_iff_le, div_le_div_iff₀ (by norm_num) hpos]
    have hcast : ((cs.length : Nat) : ℚ) ≤
        2 * ((cs.filter (fun c =>
          ((alistGet? (msgMap alarms) c).getD []).any
            is_connection_loss)).length : ℚ) := by
      exact_mod_cast hhalf
    linarith
  have hdet : detectOne (msgMap alarms) (P, cs) = some (P,
      { children := cs.filter (fun c =>
          ((alistGet? (msgMap alarms) c).getD []).any is_connection_loss),
        evidence_count := (cs.filter (fun c =>
          ((alistGet? (msgMap alarms) c).getD []).any
            is_connection_loss)).length,
        total_children := cs.length,
        ratio := ((cs.filter (fun c =>
          ((alistGet? (msgMap alarms) c).getD []).any
            is_connection_loss)).length : ℚ) / ((max cs.length 1 : Nat) : ℚ),
        report := silentReport P (cs.filter (fun c =>
          ((alistGet? (msgMap alarms) c).getD []).any
            is_connection_loss)).length cs.length
          (((cs.filter (fun c =>
            ((alistGet? (msgMap alarms) c).getD []).any
              is_connection_loss)).length : ℚ) /
            ((max cs.length 1 : Nat) : ℚ)) }) := by
    simp only [detectOne]
    rw [if_neg hcsne, if_neg hnoal', if_neg haffne, if_pos ⟨hmin, hratio⟩]
  have hsusmem := List.mem_filterMap.mpr ⟨(P, cs), alistGet?_mem hchild, hdet⟩
  rw [← detect_eq_filterMap] at hsusmem
  have hsusget := alistGet?_eq_some_of_mem
    (detect_keys_nodup E.topology (msgMap alarms)) hsusmem
  have hm2P : alistGet? (msgMap2 E.topology alarms) P =
      some [silentPseudoMsg] := by
    unfold msgMap2
    apply pushFoldPseudo_get_suspect
    · exact detect_keys_nodup _ _
    · apply (alistGet?_isSome_iff_mem_keys _ _).mp
      rw [hsusget]
      rfl
    · exact hnoal
  have hentry : (P, [silentPseudoMsg]) ∈ msgMap2 E.topology alarms :=
    alistGet?_mem hm2P
  have hanyU : (([silentPseudoMsg] : List String).any
      (fun m => strContains m "Unreachable")) = false := by decide
  have hguardB : (parentIsSilentSuspect E.topology
      (detect_silent_failures E.topology (msgMap alarms)) P &&
      ([silentPseudoMsg] : List String).any is_connection_loss) = false := by
    rw [hamend]
    rfl
  have hguardC : (([silentPseudoMsg] : List String).any
      (fun m => strContains m "Unreachable") &&
      parentIsAlarmed E.topology (msgMap2 E.topology alarms) P) = false := by
    rw [hanyU]
    rfl
  have hguardB' : ¬ ((parentIsSilentSuspect E.topology
      (detect_silent_failures E.topology (msgMap alarms)) P &&
      ([silentPseudoMsg] : List String).any is_connection_loss) = true) := by
    rw [hguardB]
    simp
  have hguardC' : ¬ ((([silentPseudoMsg] : List String).any
      (fun m => strContains m "Unreachable") &&
      parentIsAlarmed E.topology (msgMap2 E.topology alarms) P) = true) := by
    rw [hguardC]
    simp
  have hcP : ((classifyDevice E
        (detect_silent_failures E.topology (msgMap alarms))
        (msgMap2 E.topology alarms) P [silentPseudoMsg]).1.ctype =
        "Network/SilentFailure") ∧
      ((classifyDevice E (detect_silent_failures E.topology (msgMap alarms))
        (msgMap2 E.topology alarms) P [silentPseudoMsg]).1.prob = 0.8) := by
    simp only [classifyDevice]
    rw [if_neg hguardB', if_neg hguardC', hsusget]
    exact ⟨rfl, rfl⟩
  constructor
  · refine ⟨(classifyDevice E
        (detect_silent_failures E.topology (msgMap alarms))
        (msgMap2 E.topology alarms) P [silentPseudoMsg]).1, ?_,
      classifyDevice_id _ _ _ _ _, hcP.1, hcP.2⟩
    rw [analyze_fst E alarms hie]
    apply (List.perm_insertionSort _ _).mem_iff.mpr
    exact List.mem_map_of_mem _ hentry
  · intro c hc hcid
    rw [analyze_fst E alarms hie] at hc
    have hc' := (List.perm_insertionSort _ _).mem_iff.mp hc
    rcases List.mem_map.mp hc' with ⟨e, he, hce⟩
    have hid : c.id = e.1 := by
      rw [← hce]
      exact classifyDevice_id _ _ _ _ _
    rw [hid] at hcid
    have hdcs := List.mem_filter.mp hcid
    have hpred : ((alistGet? (msgMap alarms) e.1).getD []).any
        is_connection_loss = true := hdcs.2
    cases hv : alistGet? (msgMap alarms) e.1 with
    | none =>
      rw [hv] at hpred
      simp at hpred
    | some v =>
      have hm2d : alistGet? (msgMap2 E.topology alarms) e.1 = some v :=
        msgMap2_get_alarmed _ _ _ _ hv
      have he2 : alistGet? (msgMap2 E.topology alarms) e.1 = some e.2 :=
        alistGet?_eq_some_of_mem (msgMap2_keys_nodup _ _) he
      have hveq : e.2 = v := Option.some.inj (he2.symm.trans hm2d)
      rcases childrenMap_value E.topology P cs hchild e.1 hdcs.1 with
        ⟨en, hen, henid, henpar, hPne⟩
      have hgetp : alistGet? E.topology e.1 = some en.2 := by
        apply alistGet?_eq_some_of_mem hknd
        have : en = (e.1, en.2) := Prod.ext henid rfl
        exact this ▸ hen
      have hPS : parentIsSilentSuspect E.topology
          (detect_silent_failures E.topology (msgMap alarms)) e.1 = true := by
        unfold parentIsSilentSuspect getParentId
        simp only [hgetp, henpar]
        simp [hPne, alistHasKey, hsusget]
      have hany2 : e.2.any is_connection_loss = true := by
        rw [hveq]
        rw [hv] at hpred
        simpa using hpred
      have hguard : (parentIsSilentSuspect E.topology
          (detect_silent_failures E.topology (msgMap alarms)) e.1 &&
          e.2.any is_connection_loss) = true := by
        rw [hPS, hany2]
        rfl
      have hcprob : c.prob = 0.4 := by
        rw [← hce]
        simp only [classifyDevice]
        rw [if_pos hguard]
      refine ⟨hcprob, ?_⟩
      rw [hcprob]
      norm_num

/-- Scenario A of the spec: router, switch, two access points. -/
def silentDemoTopo : List (String × RcaInfo) :=
  [("R", {}), ("S1", { parent_id := some "R" }),
   ("AP1", { parent_id := some "S1" }), ("AP2", { parent_id := some "S1" })]

def silentDemoAlarms : List Alarm :=
  [{ device_id := "AP1", message := "Connection Lost", severity := "WARNING",
     timestamp := none },
   { device_id := "AP2", message := "Connection Lost", severity := "WARNING",
     timestamp := none }]

theorem silent_parent_flagged_witness :
    (∃ c ∈ (analyze (mkLogicalRCA silentDemoTopo) silentDemoAlarms).1,
      c.id = "S1" ∧ c.ctype = "Network/SilentFailure" ∧ c.prob = 0.8) ∧
    (∀ c ∈ (analyze (mkLogicalRCA silentDemoTopo) silentDemoAlarms).1,
      c.id ∈ (["AP1", "AP2"] : List String).filter (fun c =>
        ((alistGet? (msgMap silentDemoAlarms) c).getD []).any
          is_connection_loss) →
      c.prob = 0.4 ∧ c.prob < 0.8) :=
  silent_parent_flagged (mkLogicalRCA silentDemoTopo) silentDemoAlarms
    "S1" ["AP1", "AP2"] (by decide) (by with_unfolding_all decide)
    (by decide) (by with_unfolding_all decide) (by with_unfolding_all decide)
    (by with_unfolding_all decide)

/-- A three-level chain where the middle device is itself a silent
suspect's child: Q's children X, Y report link loss, P's children A, B
report connection loss, and P itself is silent. -/
def silentCexTopo : List (String × RcaInfo) :=
  [("Q", {}), ("P", { parent_id := some "Q" }), ("X", { parent_id := some "Q" }),
   ("Y", { parent_id := some "Q" }), ("A", { parent_id := some "P" }),
   ("B", { parent_id := some "P" })]

def silentCexAlarms : List Alarm :=
  [{ device_id := "A", message := "Connection Lost", severity := "WARNING",
     timestamp := none },
   { device_id := "B", message := "Connection Lost", severity := "WARNING",
     timestamp := none },
   { device_id := "X", message := "Link Down", severity := "WARNING",
     timestamp := none },
   { device_id := "Y", message := "Link Down", severity := "WARNING",
     timestamp := none }]

/-- C2 counterexample: P has no alarms, 2 of its 2 children report
connection loss — the claim's hypotheses — yet the output's only
candidate for P is `Network/ConnectionLost` at 0.4 (the engine's
pseudo-alarm for P contains "Connection Lost", so P is demoted by its own
suspected parent Q), not a SilentFailure candidate at ≥ 0.8. -/
theorem silent_parent_flagged_counterexample :
    alistHasKey (msgMap silentCexAlarms) "P" = false ∧
    alistGet? (childrenMap silentCexTopo) "P" = some ["A", "B"] ∧
    ((["A", "B"] : List String).filter (fun c =>
      ((alistGet? (msgMap silentCexAlarms) c).getD []).any
        is_connection_loss)) = ["A", "B"] ∧
    ((analyze (mkLogicalRCA silentCexTopo) silentCexAlarms).1.map
      (fun c => (c.id, c.prob, c.ctype))) =
      [("Q", 4/5, "Network/SilentFailure"),
       ("A", 2/5, "Network/ConnectionLost"),
       ("B", 2/5, "Network/ConnectionLost"),
       ("X", 2/5, "Network/ConnectionLost"),
       ("Y", 2/5, "Network/ConnectionLost"),
       ("P", 2/5, "Network/ConnectionLost")] := by
  refine ⟨rfl, rfl, rfl, ?_⟩
  with_unfolding_all decide

-- ## C4: downstream suppression

/-- A parent/child edge in a `LogicalRCA` topology dict. -/
def rcaChildEdge (topo : List (String × RcaInfo)) (p c : String) : Prop :=
  ∃ i, (c, i) ∈ topo ∧ i.parent_id = some p

/-- Transitive descendant in a `LogicalRCA` topology dict. -/
def rcaDescendant (topo : List (String × RcaInfo)) (p c : String) : Prop :=
  Relation.TransGen (rcaChildEdge topo) p c

/-- C4 (amended): the cascade suppression that `analyze` actually
implements: every alarmed device one of whose messages contains
`"Unreachable"` and whose (non-empty) parent also carries alarms or is a
silent-failure suspect appears in the output with confidence at most 0.5
and a `Network/ConnectionLost` or `Network/Unreachable` tag.  Other
descendants of a high-confidence device are not downgraded, and
alarm-free descendants get no synthesized candidate. -/
theorem unreachable_child_suppressed (E : RcaEngine) (alarms : List Alarm)
    (d p : String) (msgs : List String)
    (hmsgs : alistGet? (msgMap alarms) d = some msgs)
    (hunreach : msgs.any (fun m => strContains m "Unreachable") = true)
    (hpar : getParentId E.topology d = some p) (hpne : p ≠ "")
    (hpal : alistHasKey (msgMap2 E.topology alarms) p = true) :
    (∃ c ∈ (analyze E alarms).1, c.id = d) ∧
    (∀ c ∈ (analyze E alarms).1, c.id = d →
      c.prob ≤ 1/2 ∧
      (c.ctype = "Network/ConnectionLost" ∨
        c.ctype = "Network/Unreachable")) := by
  have hane : alarms ≠ [] := by
    intro hc
    subst hc
    cases hmsgs
  have hie : alarms.isEmpty = false := by
    cases alarms with
    | nil => exact absurd rfl hane
    | cons a l => rfl
  have hm2d : alistGet? (msgMap2 E.topology alarms) d = some msgs :=
    msgMap2_get_alarmed _ _ _ _ hmsgs
  have hentry : (d, msgs) ∈ msgMap2 E.topology alarms := alistGet?_mem hm2d
  constructor
  · refine ⟨(classifyDevice E
        (detect_silent_failures E.topology (msgMap alarms))
        (msgMap2 E.topology alarms) d msgs).1, ?_,
      classifyDevice_id _ _ _ _ _⟩
    rw [analyze_fst E alarms hie]
    apply (List.perm_insertionSort _ _).mem_iff.mpr
    exact List.mem_map_of_mem _ hentry
  · intro c hc hcid
    rw [analyze_fst E alarms hie] at hc
    have hc' := (List.perm_insertionSort _ _).mem_iff.mp hc
    rcases List.mem_map.mp hc' with ⟨e, he, hce⟩
    have hid : e.1 = d := by
      rw [← hcid, ← hce]
      exact (classifyDevice_id _ _ _ _ _).symm
    have he2 : alistGet? (msgMap2 E.topology alarms) e.1 = some e.2 :=
      alistGet?_eq_some_of_mem (msgMap2_keys_nodup _ _) he
    have hveq : e.2 = msgs := by
      apply Option.some.inj
      rw [← he2, hid, hm2d]
    by_cases hB : (parentIsSilentSuspect E.topology
        (detect_silent_failures E.topology (msgMap alarms)) e.1 &&
        e.2.any is_connection_loss) = true
    · have : c = (classifyDevice E
          (detect_silent_failures E.topology (msgMap alarms))
          (msgMap2 E.topology alarms) e.1 e.2).1 := hce.symm
      rw [this]
      simp only [classifyDevice]
      rw [if_pos hB]
      refine ⟨by norm_num, Or.inl rfl⟩
    · have hPA : parentIsAlarmed E.topology (msgMap2 E.topology alarms)
          e.1 = true := by
        unfold parentIsAlarmed
        rw [hid]
        simp only [hpar]
        simp [hpne, hpal]
      have hC : ((e.2.any (fun m => strContains m "Unreachable")) &&
          parentIsAlarmed E.topology (msgMap2 E.topology alarms) e.1) =
          true := by
        rw [hveq, hunreach, hPA]
        rfl
      have : c = (classifyDevice E
          (detect_silent_failures E.topology (msgMap alarms))
          (msgMap2 E.topology alarms) e.1 e.2).1 := hce.symm
      rw [this]
      simp only [classifyDevice]
      rw [if_neg hB, if_pos hC]
      refine ⟨by norm_num, Or.inr rfl⟩

/-- A two-device chain for the propagation counterexample. -/
def propTopo : List (String × RcaInfo) :=
  [("X", {}), ("Y", { parent_id := some "X" })]

def propAlarms : List Alarm :=
  [{ device_id := "X", message := "Device Down", severity := "CRITICAL",
     timestamp := none },
   { device_id := "Y", message := "Fan Fail", severity := "WARNING",
     timestamp := none }]

/-- C4 counterexample: X is a confirmed root cause (0.9 > 0.8) and its
direct descendant Y — not itself a confirmed root cause (0.7 ≤ 0.8) —
keeps confidence 0.7 > 0.5 with tag `Hardware/Degraded`, which is
neither secondary nor unreachable: no impact propagation takes place. -/
theorem unreachable_child_suppressed_counterexample :
    ((analyze (mkLogicalRCA propTopo) propAlarms).1.map
      (fun c => (c.id, c.prob, c.ctype))) =
      [("X", 9/10, "Hardware/Physical"), ("Y", 7/10, "Hardware/Degraded")] ∧
    rcaDescendant propTopo "X" "Y" ∧
    ((9 : ℚ)/10 > 4/5 ∧ ¬ ((7 : ℚ)/10 > 4/5) ∧ ¬ ((7 : ℚ)/10 ≤ 1/2)) := by
  refine ⟨by with_unfolding_all decide,
    Relation.TransGen.single ⟨{ parent_id := some "X" }, by decide, rfl⟩,
    by norm_num, by norm_num, by norm_num⟩

/-- A chain where the child really does report `"Unreachable"`. -/
def unreachTopo : List (String × RcaInfo) :=
  [("U", {}), ("V", { parent_id := some "U" })]

def unreachAlarms : List Alarm :=
  [{ device_id := "U", message := "Device Down", severity := "CRITICAL",
     timestamp := none },
   { device_id := "V", message := "Unreachable", severity := "WARNING",
     timestamp := none }]

theorem unreachable_child_suppressed_witness :
    (∃ c ∈ (analyze (mkLogicalRCA unreachTopo) unreachAlarms).1,
      c.id = "V") ∧
    (∀ c ∈ (analyze (mkLogicalRCA unreachTopo) unreachAlarms).1,
      c.id = "V" →
      c.prob ≤ 1/2 ∧
      (c.ctype = "Network/ConnectionLost" ∨
        c.ctype = "Network/Unreachable")) :=
  unreachable_child_suppressed (mkLogicalRCA unreachTopo) unreachAlarms
    "V" "U" ["Unreachable"] (by decide) (by decide) (by decide) (by decide)
    (by with_unfolding_all decide)

-- ## `bayes_engine.BayesianRCA`

/-- The engine's state: the monotonically growing evidence set.  A Python
set is modelled as a deduplicated insertion-ordered list; every use of
the set sums independent per-element contributions (in ℚ), so the
iteration order is immaterial.  The stored topology is never read by
`update_probabilities` or `get_ranking` and is omitted. -/
structure BayesState where
  evidence : List (String × String)
deriving DecidableEq, Inhabited

/-- `BayesianRCA.__init__`. -/
def mkBayesianRCA : BayesState := { evidence := [] }

/-- The hard-coded knowledge base, in source order. -/
def knowledge_base : List ((String × String) × List (String × String)) :=
  [(("FW_01_PRIMARY", "Hardware/Physical"),
     [("alarm", "Heartbeat Loss"), ("alarm", "HA Failover"),
      ("log", "Power Fail"), ("ping", "NG")]),
   (("WAN_ROUTER_01", "Hardware/Physical"),
     [("alarm", "Power Supply 1 Failed"), ("log", "Interface Down"),
      ("ping", "NG"), ("log", "System Overheat")]),
   (("WAN_ROUTER_01", "Config/Software"),
     [("alarm", "BGP Flapping"), ("log", "Config Error")]),
   (("WAN_ROUTER_01", "Hardware/Critical_Multi_Fail"),
     [("alarm", "Power Supply 1 Failed"), ("alarm", "Fan Fail"),
      ("log", "System Overheat")]),
   (("L2_SW", "Hardware/Fan"),
     [("alarm", "Fan Fail"), ("log", "High Temperature"),
      ("log", "System Warning")]),
   (("AP_01", "Network/Connection"),
     [("alarm", "Connection Lost"), ("ping", "NG")]),
   (("External_ISP", "Network"),
     [("alarm", "BGP Flapping"), ("ping", "NG")])]

/-- `self.knowledge_base.get((cand_id, cand_type), [])`. -/
def kbExpected (cand : String × String) : List (String × String) :=
  ((knowledge_base.find? (fun e => e.1 == cand)).map (fun e => e.2)).getD []

/-- `BayesianRCA.update_probabilities`: add the evidence pair to the set. -/
def update_probabilities (s : BayesState) (evidence_type evidence_value : String) :
    BayesState :=
  if (evidence_type, evidence_value) ∈ s.evidence then s
  else { evidence := s.evidence ++ [(evidence_type, evidence_value)] }

/-- One row of `get_ranking`. -/
structure RankEntry where
  id : String
  rtype : String
  prob : ℚ
  matched : Nat
deriving DecidableEq, Inhabited

/-- One iteration of the scoring loop: 0.4 (and a match count) for an
exact evidence match, 0.05 for a type-only match. -/
def evContribution (expected : List (String × String)) (acc : ℚ × Nat)
    (ev : String × String) : ℚ × Nat :=
  if ev ∈ expected then (acc.1 + 0.4, acc.2 + 1)
  else if expected.any (fun sym => sym.1 = ev.1) then (acc.1 + 0.05, acc.2)
  else acc

/-- The per-candidate body of the `get_ranking` loop: symptom lookup
(with the `AP_01` override), additive scoring (0.4 exact, 0.05
type-only), the three demo boosts, the cap at 1.0 and the 0.1 noise
cut-off. -/
def scoreCandidate (s : BayesState) (cand : String × String) :
    Option RankEntry :=
  let expected0 := kbExpected cand
  let expected :=
    if cand.1 = "AP_01" then [("alarm", "Connection Lost"), ("ping", "NG")]
    else expected0
  if expected.isEmpty then none
  else
    let sm := s.evidence.foldl (evContribution expected) (0, 0)
    let score1 :=
      if cand.1 = "FW_01_PRIMARY" ∧
          s.evidence.any (fun e => e.2 = "Heartbeat Loss") then sm.1 + 0.5
      else sm.1
    let score2 :=
      if cand.1 = "AP_01" ∧
          s.evidence.any (fun e => e.2 = "Connection Lost") then score1 + 0.5
      else score1
    let score3 :=
      if cand.2 = "Hardware/Critical_Multi_Fail" ∧
          2 ≤ (s.evidence.filter (fun e => strContains e.2 "Fail")).length then
        score2 + 0.6
      else score2
    let final_prob := min score3 1
    if final_prob > 0.1 then
      some { id := cand.1, rtype := cand.2, prob := final_prob, matched := sm.2 }
    else none

/-- `BayesianRCA.get_ranking`: score every knowledge-base candidate
(dynamically adding `AP_01` on Connection-Lost evidence — a no-op, since
it is already a key), drop scores ≤ 0.1, fall back to the `"System"`
sentinel, and sort by descending score (stable, as Python's `sort`). -/
def get_ranking (s : BayesState) : List RankEntry :=
  let candidates0 := knowledge_base.map (fun e => e.1)
  let candidates :=
    if s.evidence.any (fun e => e.2 = "Connection Lost") then
      (if ("AP_01", "Network/Connection") ∈ candidates0 then candidates0
       else candidates0 ++ [("AP_01", "Network/Connection")])
    else candidates0
  let ranking := candidates.filterMap (scoreCandidate s)
  let ranking2 :=
    if ranking.isEmpty then
      [{ id := "System", rtype := "Normal", prob := 0, matched := 0 }]
    else ranking
  List.insertionSort (fun a b : RankEntry => b.prob ≤ a.prob) ranking2

-- Every symptom in the knowledge base has evidence type "alarm", "log"
-- or "ping"; an update with any other type can match nothing.

lemma kb_symptom_types :
    ∀ e ∈ knowledge_base, ∀ sym ∈ e.2,
      sym.1 = "alarm" ∨ sym.1 = "log" ∨ sym.1 = "ping" := by
  decide

lemma kbExpected_types (cand : String × String) :
    ∀ sym ∈ kbExpected cand,
      sym.1 = "alarm" ∨ sym.1 = "log" ∨ sym.1 = "ping" := by
  intro sym hsym
  unfold kbExpected at hsym
  cases hf : knowledge_base.find? (fun e => e.1 == cand) with
  | none => rw [hf] at hsym; simp at hsym
  | some ekb =>
      rw [hf] at hsym
      simp only [Option.map_some', Option.getD_some] at hsym
      exact kb_symptom_types ekb (List.mem_of_find?_eq_some hf) sym hsym

lemma expectedTypes (cand : String × String) :
    ∀ sym ∈ (if cand.1 = "AP_01" then
        [("alarm", "Connection Lost"), ("ping", "NG")] else kbExpected cand),
      sym.1 = "alarm" ∨ sym.1 = "log" ∨ sym.1 = "ping" := by
  intro sym hsym
  split at hsym
  · simp only [List.mem_cons, List.mem_singleton] at hsym
    rcases hsym with h | h | h
    · rw [h]; left; rfl
    · rw [h]; right; right; rfl
    · simp at h
  · exact kbExpected_types cand sym hsym

lemma evContribution_skip (expected : List (String × String))
    (hexp : ∀ sym ∈ expected, sym.1 = "alarm" ∨ sym.1 = "log" ∨ sym.1 = "ping")
    (t v : String) (ht : ¬ (t = "alarm" ∨ t = "log" ∨ t = "ping"))
    (acc : ℚ × Nat) :
    evContribution expected acc (t, v) = acc := by
  have hnotmem : ((t, v) ∉ expected) := fun h => ht (hexp (t, v) h)
  have hnotany : ¬ (expected.any (fun sym => sym.1 = (t, v).1) = true) := by
    intro h
    obtain ⟨sym, hmem, hsym⟩ := List.any_eq_true.mp h
    have hst : sym.1 = t := of_decide_eq_true hsym
    rcases hexp sym hmem with h1 | h1 | h1
    · exact ht (Or.inl (hst.symm.trans h1))
    · exact ht (Or.inr (Or.inl (hst.symm.trans h1)))
    · exact ht (Or.inr (Or.inr (hst.symm.trans h1)))
  unfold evContribution
  rw [if_neg hnotmem, if_neg hnotany]

lemma scoreCandidate_skip (s s' : BayesState) (t v : String)
    (cand : String × String)
    (hs' : s'.evidence = s.evidence ++ [(t, v)])
    (ht : ¬ (t = "alarm" ∨ t = "log" ∨ t = "ping"))
    (hv1 : v ≠ "Heartbeat Loss") (hv2 : v ≠ "Connection Lost")
    (hv3 : strContains v "Fail" = false) :
    scoreCandidate s' cand = scoreCandidate s cand := by
  have hHL : (([(t, v)] : List (String × String)).any
      (fun e => e.2 = "Heartbeat Loss")) = false := by
    simp [List.any_cons, List.any_nil, hv1]
  have hCL : (([(t, v)] : List (String × String)).any
      (fun e => e.2 = "Connection Lost")) = false := by
    simp [List.any_cons, List.any_nil, hv2]
  have hFail : (([(t, v)] : List (String × String)).filter
      (fun e => strContains e.2 "Fail")) = [] := by
    simp [List.filter_cons, hv3]
  have hfold : (s.evidence ++ [(t, v)]).foldl
      (evContribution (if cand.1 = "AP_01" then
        [("alarm", "Connection Lost"), ("ping", "NG")] else kbExpected cand))
      (0, 0) =
      s.evidence.foldl
        (evContribution (if cand.1 = "AP_01" then
          [("alarm", "Connection Lost"), ("ping", "NG")] else kbExpected cand))
        (0, 0) := by
    rw [List.foldl_append, List.foldl_cons, List.foldl_nil,
      evContribution_skip _ (expectedTypes cand) t v ht _]
  simp only [scoreCandidate, hs']
  rw [hfold, List.any_append, List.any_append, List.filter_append,
    hHL, hCL, hFail, List.append_nil, Bool.or_false, Bool.or_false]

lemma get_ranking_skip (s : BayesState) (t v : String)
    (ht : ¬ (t = "alarm" ∨ t = "log" ∨ t = "ping"))
    (hv1 : v ≠ "Heartbeat Loss") (hv2 : v ≠ "Connection Lost")
    (hv3 : strContains v "Fail" = false) :
    get_ranking (update_probabilities s t v) = get_ranking s := by
  unfold update_probabilities
  split
  · rfl
  · have hs' : ({ evidence := s.evidence ++ [(t, v)] } : BayesState).evidence
        = s.evidence ++ [(t, v)] := rfl
    have hCL1 : (([(t, v)] : List (String × String)).any
        (fun e => e.2 = "Connection Lost")) = false := by
      simp [List.any_cons, List.any_nil, hv2]
    have hsc : scoreCandidate ({ evidence := s.evidence ++ [(t, v)] } :
        BayesState) = scoreCandidate s :=
      funext fun cand =>
        scoreCandidate_skip s _ t v cand rfl ht hv1 hv2 hv3
    simp only [get_ranking, hs', hsc]
    rw [List.any_append, hCL1, Bool.or_false]

lemma scoreCandidate_prob_le (s : BayesState) (cand : String × String)
    (e : RankEntry) (h : scoreCandidate s cand = some e) : e.prob ≤ 1 := by
  simp only [scoreCandidate] at h
  repeat' split at h
  all_goals first
    | (injection h with h' ; rw [← h'] ; exact min_le_right _ _)
    | injection h

lemma get_ranking_prob_le (s : BayesState) :
    ∀ e ∈ get_ranking s, e.prob ≤ 1 := by
  intro e he
  simp only [get_ranking] at he
  have he2 := (List.perm_insertionSort
    (fun a b : RankEntry => b.prob ≤ a.prob) _).mem_iff.mp he
  repeat' split at he2
  all_goals first
    | (obtain ⟨cand, hc, hsc⟩ := List.mem_filterMap.mp he2
       exact scoreCandidate_prob_le s cand e hsc)
    | (simp only [List.mem_singleton] at he2
       subst he2
       show (0 : ℚ) ≤ 1
       norm_num)

/-- C5 counterexample: after the single update
`update_probabilities("alarm", "Heartbeat Loss")` — an evidence pair
that the knowledge base knows exactly (it is a symptom of the
`FW_01_PRIMARY` entry) — `get_ranking` returns the one candidate
`FW_01_PRIMARY` with score 0.9, so the probabilities sum to 0.9, not
1.0: the scores are absolute per-candidate sums, never renormalized. -/
theorem bayes_posterior_counterexample :
    (("alarm", "Heartbeat Loss") ∈
      kbExpected ("FW_01_PRIMARY", "Hardware/Physical")) ∧
    ((get_ranking (update_probabilities mkBayesianRCA "alarm"
        "Heartbeat Loss")).map (fun e => (e.id, e.prob))) =
      [("FW_01_PRIMARY", 9/10)] ∧
    ((get_ranking (update_probabilities mkBayesianRCA "alarm"
        "Heartbeat Loss")).map (fun e => e.prob)).sum ≠ 1 := by
  refine ⟨by decide, by with_unfolding_all decide,
    by with_unfolding_all decide⟩

/-- C5: amended.  `get_ranking` produces absolute per-candidate scores,
each capped at 1.0 (never a distribution summing to 1), and an update
whose evidence type occurs in no knowledge-base symptom — provided its
value triggers none of the hard-coded boosts (`"Heartbeat Loss"`,
`"Connection Lost"`, containing `"Fail"`) — leaves the ranking, and
hence the sum of the scores, unchanged. -/
theorem bayes_scores_capped_and_unknown_skipped
    (s : BayesState) (t v : String)
    (ht : ¬ (t = "alarm" ∨ t = "log" ∨ t = "ping"))
    (hv1 : v ≠ "Heartbeat Loss") (hv2 : v ≠ "Connection Lost")
    (hv3 : strContains v "Fail" = false) :
    (∀ e ∈ get_ranking s, e.prob ≤ 1) ∧
    get_ranking (update_probabilities s t v) = get_ranking s :=
  ⟨get_ranking_prob_le s, get_ranking_skip s t v ht hv1 hv2 hv3⟩

theorem bayes_scores_capped_and_unknown_skipped_witness :
    (∀ e ∈ get_ranking mkBayesianRCA, e.prob ≤ 1) ∧
    get_ranking (update_probabilities mkBayesianRCA "metric" "latency") =
      get_ranking mkBayesianRCA :=
  bayes_scores_capped_and_unknown_skipped mkBayesianRCA "metric" "latency"
    (by decide) (by decide) (by decide) (by decide)
